import Mathlib

/-!
# webcfg: the introspection, codec and update engine

A shallow embedding of `web/page.go`, `web/update.go` and `web/view.go`.

The Go code walks a configuration struct through package `reflect`.  The
embedding keeps what the code reads from reflection:

* a struct member is a `Slot`: its `reflect.StructField` (name, package path,
  the `web` part of the tag), its kind, its current value and the methods of
  its type that the engine looks for (`UnmarshalText`, `MarshalText`);
* the root object is a list of `Member`s in declaration order; a member of
  struct kind carries its own members;
* a `reflect.Value` reached through a non-exported member is read-only: the
  flag is passed along as `flagRO`, and the operations of `reflect` that panic
  on such a value give `Outcome.panic` here;
* Go strings are Lean strings; `strconv.ParseInt` and `strconv.ParseUint`
  (base 10, 64 bits) are written out after the Go standard library;
  `strconv.ParseFloat` and the float formatting are parameters (`GoLib`),
  a float value being its IEEE-754 binary64 bit pattern;
* a hook (`Updated`, `Initialize`) is a function on the root object and the
  notification queue, found by the name of the member whose type has it;
* `errors.Is` and `errors.As` are written out after the Go standard library
  for the error values of the model, and so is `fmt.Sprintf` for the verbs
  `s` and `v`; `strconv.Quote` is a parameter (`GoLib`);
* `writeIndex`, which renders the template, is a parameter of `serveIndex`.

Root struct types are taken without promoted members of embedded structs, so
that `FieldByName` is the search among the direct members.  `int` and `uint`
are 64 bits wide (`IntSize`).
-/

namespace Webcfg

/-! ## Values, kinds and errors -/

/-- The kinds of `reflect.Kind`. -/
inductive Kind
  | Invalid | Bool | Int | Int8 | Int16 | Int32 | Int64
  | Uint | Uint8 | Uint16 | Uint32 | Uint64 | Uintptr
  | Float32 | Float64 | Complex64 | Complex128
  | Array | Chan | Func | Interface | Map | Pointer | Slice | String | Struct
  | UnsafePointer
  deriving DecidableEq, Repr

/-- The two causes a `strconv.NumError` wraps. -/
inductive NumCause
  | ErrSyntax | ErrRange
  deriving DecidableEq, Repr

/-- Go error values that occur in the engine. -/
inductive GoError
  /-- An error made by `errors.New` or `fmt.Errorf`. -/
  | errorString (s : String)
  /-- A `*strconv.NumError`. -/
  | NumError (Func Num : String) (Err : NumCause)
  /-- A `*web.ParseError` seen as an `error`. -/
  | ParseError (Message Field : String) (Err : GoError)
  /-- An error of a caller-defined type, given by its type name and text. -/
  | custom (typeName text : String)
  /-- An error of a caller-defined type whose values Go cannot compare (a slice
  type, or a struct holding a slice), given by its type name and text. -/
  | uncomparable (typeName text : String)
  deriving DecidableEq, Repr

/-- The struct `ParseError` of `update.go`. -/
structure ParseError where
  Message : String
  Field : String
  Err : GoError
  deriving DecidableEq, Repr

/-- A `*ParseError` returned as an `error`. -/
def ParseError.asError (p : ParseError) : GoError :=
  GoError.ParseError p.Message p.Field p.Err

/-- How a call ends: it returns nil, returns an error, or panics. -/
inductive Outcome (ε : Type)
  | nil
  | err (e : ε)
  | panic (msg : String)
  deriving DecidableEq, Repr

/-- The value held by a struct member.  Signed and unsigned integers are the
numbers themselves, a float is its binary64 bit pattern, and a value of a kind
the engine does not interpret is named by a text. -/
inductive GoVal
  | bool (b : Bool)
  | int (n : Int)
  | uint (n : Nat)
  | float (bits : Nat)
  | str (s : String)
  | other (text : String)
  deriving DecidableEq, Repr

deriving instance DecidableEq for Except

/-- Width of `int` and `uint` (`strconv.IntSize`). -/
def IntSize : Nat := 64

/-- Conversion of an `int64` to a signed integer type of `w` bits. -/
def wrapInt (w : Nat) (x : Int) : Int :=
  (x + 2 ^ (w - 1)) % 2 ^ w - 2 ^ (w - 1)

/-- Conversion of a `uint64` to an unsigned integer type of `w` bits. -/
def wrapUint (w : Nat) (x : Nat) : Nat :=
  x % 2 ^ w

/-- The part of `strconv` and `fmt` that is taken as given: floating point,
and the formatting of values of kinds the engine does not interpret. -/
structure GoLib where
  /-- `strconv.ParseFloat(s, 64)`: the bits of the parsed float64. -/
  ParseFloat : String → Except GoError Nat
  /-- The conversion `float32(x)`, given and returned as float64 bits. -/
  toFloat32 : Nat → Nat
  /-- `fmt.Sprint` of a float, or of a value of another kind. -/
  Sprint : Kind → GoVal → String
  /-- `strconv.Quote`, which the text of a `*strconv.NumError` uses. -/
  Quote : String → String

/-! ## Struct members as reflection sees them -/

/-- The fields of `reflect.StructField` that the engine reads; `Tag` is what
`sf.Tag.Get("web")` returns. -/
structure StructField where
  Name : String
  PkgPath : String
  Tag : String
  deriving DecidableEq, Repr

/-- A member of a section: its `StructField`, its kind, its current value and
the text methods of its type.  `unmarshalText` is the `UnmarshalText` found on
a pointer to the member: it gets the submitted text and the current value and
gives the value it leaves and the error it returns.  `marshalText` is the
`MarshalText` found on the value itself. -/
structure Slot where
  sf : StructField
  kind : Kind
  val : GoVal
  unmarshalText : Option (String → GoVal → GoVal × Option GoError)
  marshalText : Option (GoVal → Except GoError String)
  /-- The method of the type through which `fmt.Sprint` prints the value, when
  it has one: `Format`, `Error` or `String`. -/
  stringer : Option (GoVal → String)

/-- A member of the root object; `fields` are its own members when its kind is
`Struct`, `val` is its value otherwise. -/
structure Member where
  sf : StructField
  kind : Kind
  fields : List Slot
  val : GoVal

/-! ## `page.go`: the display schema -/

/-- The struct `Field` of `page.go`. -/
structure Field where
  Name : String
  Label : String
  Value : String
  /-- The member `Type` of the Go struct (a reserved word here). -/
  Typ : String
  Icon : String
  Status : String
  Help : String
  Readonly : Bool
  deriving DecidableEq, Repr

/-- The struct `Section` of `page.go`. -/
structure Section where
  Title : String
  Subtitle : String
  Action : String
  Fields : List Field
  deriving DecidableEq, Repr

/-- The struct `Notification` of `page.go`. -/
structure Notification where
  Message : String
  Status : String
  deriving DecidableEq, Repr

/-- The struct `Page` of `page.go`. -/
structure Page where
  Title : String
  Subtitle : String
  Notifications : List Notification
  Sections : List Section
  HasAssets : Bool
  deriving DecidableEq, Repr

/-- The root object behind the `config` pointer: the name of its type and its
members in declaration order. -/
structure Config where
  typeName : String
  members : List Member

/-- What a hook (`Updated`, `Initialize`) does: it gets the root object and the
notification queue and leaves both, with the error it returns. -/
abbrev Hook := Config → List Notification → Config × List Notification × Option GoError

/-- The struct `configPage` of `page.go`.  `Updated` and `Initialize` give, for
a member name, the hook that a pointer to that member exposes. -/
structure configPage extends Page where
  config : Config
  hasAssetsHandler : Bool
  Updated : String → Option Hook
  Initialize : String → Option Hook

/-- One piece per separator: `strings.Split` on a one-character separator,
on character lists. -/
def splitChars (sep : Char) : List Char → List (List Char)
  | [] => [[]]
  | c :: cs =>
    if c = sep then [] :: splitChars sep cs
    else
      match splitChars sep cs with
      | [] => [[c]]
      | p :: ps => (c :: p) :: ps

/-- The call `strings.Split(s, ",")`. -/
def Split (s : String) : List String :=
  (splitChars ',' s.data).map String.mk

/-- The function `parseTag` of `page.go`. -/
def parseTag (kind : Kind) (sf : StructField) : Field :=
  let f : Field :=
    { Name := sf.Name, Label := sf.Name, Value := "", Typ := "text",
      Icon := "", Status := "", Help := "", Readonly := false }
  let f := if kind = Kind.Bool then { f with Typ := "checkbox" } else f
  let tag := sf.Tag
  if tag ≠ "" then
    let parts := Split tag
    let f := if 0 < parts.length ∧ parts.getD 0 "" ≠ "" then
      { f with Name := parts.getD 0 "", Label := parts.getD 0 "" } else f
    let f := if 1 < parts.length ∧ parts.getD 1 "" ≠ "" then
      { f with Label := parts.getD 1 "" } else f
    let f := if 2 < parts.length ∧ parts.getD 2 "" ≠ "" then
      { f with Typ := parts.getD 2 "" } else f
    let f := if 3 < parts.length ∧ parts.getD 3 "" ≠ "" then
      { f with Icon := parts.getD 3 "" } else f
    let f := if 4 < parts.length ∧ parts.getD 4 "" ≠ "" then
      { f with Status := parts.getD 4 "" } else f
    let f := if 5 < parts.length ∧ parts.getD 5 "" ≠ "" then
      { f with Help := parts.getD 5 "" } else f
    f
  else f

/-! ## `strconv`: base-10 integers of 64 bits -/

/-- The largest `uint64`. -/
def maxUint64 : Nat := 2 ^ 64 - 1

/-- The loop of `strconv.ParseUint(s, 10, 64)` over the characters still to
read, `n` being the number read so far: a character that is no decimal digit
is a syntax error, a number that leaves 64 bits is a range error. -/
def parseUintLoop : List Char → Nat → Except NumCause Nat
  | [], n => .ok n
  | c :: cs, n =>
    if '0' ≤ c ∧ c ≤ '9' then
      let d := c.toNat - '0'.toNat
      if n ≥ maxUint64 / 10 + 1 then .error NumCause.ErrRange
      else
        let n1 := n * 10 + d
        if n1 > maxUint64 then .error NumCause.ErrRange
        else parseUintLoop cs n1
    else .error NumCause.ErrSyntax

/-- The call `strconv.ParseUint(s, 10, 64)`. -/
def ParseUint (s : String) : Except GoError Nat :=
  if s = "" then .error (GoError.NumError "ParseUint" s NumCause.ErrSyntax)
  else
    match parseUintLoop s.data 0 with
    | .ok n => .ok n
    | .error c => .error (GoError.NumError "ParseUint" s c)

/-- The call `strconv.ParseInt(s, 10, 64)`: an optional sign, then the digits
read as by `ParseUint`, then the check against the signed range. -/
def ParseInt (s0 : String) : Except GoError Int :=
  if s0 = "" then .error (GoError.NumError "ParseInt" s0 NumCause.ErrSyntax)
  else
    let neg := s0.data.head? = some '-'
    let s := if s0.data.head? = some '+' ∨ s0.data.head? = some '-'
      then s0.data.tail else s0.data
    let un : Except NumCause Nat :=
      if s = [] then .error NumCause.ErrSyntax else parseUintLoop s 0
    match un with
    | .error NumCause.ErrSyntax => .error (GoError.NumError "ParseInt" s0 NumCause.ErrSyntax)
    | .error NumCause.ErrRange => .error (GoError.NumError "ParseInt" s0 NumCause.ErrRange)
    | .ok un =>
      let cutoff : Nat := 2 ^ 63
      if ¬ neg ∧ un ≥ cutoff then .error (GoError.NumError "ParseInt" s0 NumCause.ErrRange)
      else if neg ∧ un > cutoff then .error (GoError.NumError "ParseInt" s0 NumCause.ErrRange)
      else .ok (if neg then - (un : Int) else (un : Int))

/-! ## `reflect`: setting a value -/

/-- The panic of `reflect` on a value reached through a non-exported member. -/
def roPanic (method : String) : String :=
  "reflect: " ++ method ++ " using value obtained using unexported field"

/-- The panic of `reflect` on a setter called for the wrong kind. -/
def kindPanic (method : String) : String :=
  "reflect: call of " ++ method ++ " on value of another kind"

/-- The panic of `Value.Interface` on a read-only value. -/
def interfacePanic : String :=
  "reflect.Value.Interface: cannot return value obtained from unexported field or method"

/-- The method `Value.SetBool`. -/
def SetBool (flagRO : Bool) (v : Slot) (x : Bool) : Except String Slot :=
  if flagRO then .error (roPanic "reflect.Value.SetBool")
  else if v.kind = Kind.Bool then .ok { v with val := GoVal.bool x }
  else .error (kindPanic "reflect.Value.SetBool")

/-- The method `Value.SetString`. -/
def SetString (flagRO : Bool) (v : Slot) (x : String) : Except String Slot :=
  if flagRO then .error (roPanic "reflect.Value.SetString")
  else if v.kind = Kind.String then .ok { v with val := GoVal.str x }
  else .error (kindPanic "reflect.Value.SetString")

/-- The method `Value.SetInt`: the `int64` is converted to the type of the
member, which cuts it to the width of that type. -/
def SetInt (flagRO : Bool) (v : Slot) (x : Int) : Except String Slot :=
  if flagRO then .error (roPanic "reflect.Value.SetInt")
  else
    match v.kind with
    | Kind.Int => .ok { v with val := GoVal.int (wrapInt IntSize x) }
    | Kind.Int8 => .ok { v with val := GoVal.int (wrapInt 8 x) }
    | Kind.Int16 => .ok { v with val := GoVal.int (wrapInt 16 x) }
    | Kind.Int32 => .ok { v with val := GoVal.int (wrapInt 32 x) }
    | Kind.Int64 => .ok { v with val := GoVal.int (wrapInt 64 x) }
    | _ => .error (kindPanic "reflect.Value.SetInt")

/-- The method `Value.SetUint`. -/
def SetUint (flagRO : Bool) (v : Slot) (x : Nat) : Except String Slot :=
  if flagRO then .error (roPanic "reflect.Value.SetUint")
  else
    match v.kind with
    | Kind.Uint => .ok { v with val := GoVal.uint (wrapUint IntSize x) }
    | Kind.Uintptr => .ok { v with val := GoVal.uint (wrapUint IntSize x) }
    | Kind.Uint8 => .ok { v with val := GoVal.uint (wrapUint 8 x) }
    | Kind.Uint16 => .ok { v with val := GoVal.uint (wrapUint 16 x) }
    | Kind.Uint32 => .ok { v with val := GoVal.uint (wrapUint 32 x) }
    | Kind.Uint64 => .ok { v with val := GoVal.uint (wrapUint 64 x) }
    | _ => .error (kindPanic "reflect.Value.SetUint")

/-- The method `Value.SetFloat`. -/
def SetFloat (L : GoLib) (flagRO : Bool) (v : Slot) (x : Nat) : Except String Slot :=
  if flagRO then .error (roPanic "reflect.Value.SetFloat")
  else
    match v.kind with
    | Kind.Float32 => .ok { v with val := GoVal.float (L.toFloat32 x) }
    | Kind.Float64 => .ok { v with val := GoVal.float x }
    | _ => .error (kindPanic "reflect.Value.SetFloat")

/-- A setter that panicked leaves the member as it was. -/
def afterSet (v : Slot) : Except String Slot → Slot × Outcome ParseError
  | .ok w => (w, Outcome.nil)
  | .error msg => (v, Outcome.panic msg)

/-! ## `update.go`: decoding a submitted text into a member -/

/-- The function `handleBool` of `update.go`. -/
def handleBool (flagRO : Bool) (subFieldVal : Slot) (valStr : String) :
    Slot × Outcome ParseError :=
  if valStr = "on" ∨ valStr = "true" then
    afterSet subFieldVal (SetBool flagRO subFieldVal true)
  else
    afterSet subFieldVal (SetBool flagRO subFieldVal false)

/-- The function `handleInt` of `update.go`. -/
def handleInt (flagRO : Bool) (subFieldVal : Slot) (valStr : String) :
    Slot × Outcome ParseError :=
  let valStr := if valStr = "" then "0" else valStr
  match ParseInt valStr with
  | .error err =>
    (subFieldVal, Outcome.err { Message := "invalid integer", Field := "", Err := err })
  | .ok n => afterSet subFieldVal (SetInt flagRO subFieldVal n)

/-- The function `handleUint` of `update.go`. -/
def handleUint (flagRO : Bool) (subFieldVal : Slot) (valStr : String) :
    Slot × Outcome ParseError :=
  let valStr := if valStr = "" then "0" else valStr
  match ParseUint valStr with
  | .error err =>
    (subFieldVal, Outcome.err { Message := "invalid integer", Field := "", Err := err })
  | .ok n => afterSet subFieldVal (SetUint flagRO subFieldVal n)

/-- The function `handleFloat` of `update.go`. -/
def handleFloat (L : GoLib) (flagRO : Bool) (subFieldVal : Slot) (valStr : String) :
    Slot × Outcome ParseError :=
  let valStr := if valStr = "" then "0" else valStr
  match L.ParseFloat valStr with
  | .error err =>
    (subFieldVal, Outcome.err { Message := "invalid integer", Field := "", Err := err })
  | .ok n => afterSet subFieldVal (SetFloat L flagRO subFieldVal n)

/-- The function `handleField` of `update.go`.  The member is addressable (it
lies in the struct behind the `config` pointer), so `CanAddr` holds and
`Addr().Interface()` is evaluated, which panics on a read-only value. -/
def handleField (L : GoLib) (flagRO : Bool) (subFieldVal : Slot) (valStr : String) :
    Slot × Outcome ParseError :=
  if subFieldVal.kind = Kind.Bool then handleBool flagRO subFieldVal valStr
  else if flagRO then (subFieldVal, Outcome.panic interfacePanic)
  else
    match subFieldVal.unmarshalText with
    | some tu =>
      match tu valStr subFieldVal.val with
      | (w, some err) =>
        ({ subFieldVal with val := w },
          Outcome.err { Message := "failed to unmarshal", Field := "", Err := err })
      | (w, none) => ({ subFieldVal with val := w }, Outcome.nil)
    | none =>
      match subFieldVal.kind with
      | Kind.String => afterSet subFieldVal (SetString flagRO subFieldVal valStr)
      | Kind.Int | Kind.Int8 | Kind.Int16 | Kind.Int32 | Kind.Int64 =>
        handleInt flagRO subFieldVal valStr
      | Kind.Uint | Kind.Uint8 | Kind.Uint16 | Kind.Uint32 | Kind.Uint64 =>
        handleUint flagRO subFieldVal valStr
      | Kind.Float32 | Kind.Float64 => handleFloat L flagRO subFieldVal valStr
      | _ => (subFieldVal, Outcome.nil)

/-! ## The request -/

/-- What the engine reads of an `*http.Request`: the error `ParseForm` returns,
if any, and the form it leaves, each key with its values. -/
structure Request where
  parseFormErr : Option GoError
  Form : List (String × List String)

/-- The method `Request.FormValue`: the first value of the key, or the empty
string when the key has none. -/
def Request.FormValue (r : Request) (key : String) : String :=
  match r.Form.lookup key with
  | some (v :: _) => v
  | _ => ""

/-! ## `update.go`: applying a submission to a section -/

/-- The search of `Value.FieldByName` among the direct members: the position
and the member of the first one with that name. -/
def fieldIndex : List Member → String → Option (Nat × Member)
  | [], _ => none
  | m :: ms, name =>
    if m.sf.Name = name then some (0, m)
    else (fieldIndex ms name).map (fun im => (im.1 + 1, im.2))

/-- The method `Value.FieldByName` on the root object; no member has the empty
name. -/
def FieldByName (members : List Member) (name : String) : Option (Nat × Member) :=
  if name = "" then none else fieldIndex members name

/-- The loop of `updateConfig` over the members of the section, from the first
one still to process: it gives the members as the loop leaves them and how the
loop ends. -/
def updateLoop (L : GoLib) (flagRO : Bool) (r : Request) :
    List Slot → List Slot × Outcome ParseError
  | [] => ([], Outcome.nil)
  | subFieldVal :: rest =>
    if subFieldVal.sf.PkgPath ≠ "" then
      (subFieldVal :: (updateLoop L flagRO r rest).1, (updateLoop L flagRO r rest).2)
    else
      let field := parseTag subFieldVal.kind subFieldVal.sf
      let valStr := r.FormValue field.Name
      match handleField L flagRO subFieldVal valStr with
      | (w, Outcome.nil) =>
        (w :: (updateLoop L flagRO r rest).1, (updateLoop L flagRO r rest).2)
      | (w, Outcome.err e) => (w :: rest, Outcome.err { e with Field := field.Name })
      | (w, Outcome.panic msg) => (w :: rest, Outcome.panic msg)

/-- The root object with the members of its `i`-th member replaced. -/
def Config.setFields (c : Config) (i : Nat) (m : Member) (fields : List Slot) : Config :=
  { c with members := c.members.set i { m with fields := fields } }

/-- The method `updateConfig` of `update.go`: the page it leaves (the root
object and the notification queue may have changed) and how the call ends. -/
def updateConfig (L : GoLib) (p : configPage) (sectionName : String) (r : Request) :
    configPage × Outcome GoError :=
  match r.parseFormErr with
  | some err => (p, Outcome.err err)
  | none =>
    match FieldByName p.config.members sectionName with
    | none =>
      (p, Outcome.err (GoError.errorString ("section " ++ sectionName ++ " not found")))
    | some (i, sectionField) =>
      if sectionField.kind ≠ Kind.Struct then
        (p, Outcome.err (GoError.errorString ("section " ++ sectionName ++ " not found")))
      else
        let flagRO : Bool := sectionField.sf.PkgPath ≠ ""
        match updateLoop L flagRO r sectionField.fields with
        | (fields, Outcome.err e) =>
          ({ p with config := p.config.setFields i sectionField fields },
            Outcome.err e.asError)
        | (fields, Outcome.panic msg) =>
          ({ p with config := p.config.setFields i sectionField fields },
            Outcome.panic msg)
        | (fields, Outcome.nil) =>
          let q : configPage := { p with config := p.config.setFields i sectionField fields }
          if flagRO then (q, Outcome.panic interfacePanic)
          else
            match p.Updated sectionField.sf.Name with
            | some ur =>
              match ur q.config q.Notifications with
              | (c, ns, some err) =>
                ({ q with config := c, Notifications := ns }, Outcome.err err)
              | (c, ns, none) =>
                ({ q with config := c, Notifications := ns }, Outcome.nil)
            | none => (q, Outcome.nil)

/-! ## `view.go`: building the display schema -/

/-- The text `fmt.Sprint` gives for a value with no method of its own. -/
def sprintVal (L : GoLib) (kind : Kind) : GoVal → String
  | GoVal.bool b => if b then "true" else "false"
  | GoVal.int n => if n < 0 then "-" ++ Nat.repr n.natAbs else Nat.repr n.natAbs
  | GoVal.uint n => Nat.repr n
  | GoVal.float bits => L.Sprint kind (GoVal.float bits)
  | GoVal.str s => s
  | GoVal.other text => L.Sprint kind (GoVal.other text)

/-- The function `buildField` of `view.go`; it is reached for exported members
of exported sections only, where `Value.Interface` does not panic. -/
def buildField (L : GoLib) (v : Slot) : Field :=
  let f := parseTag v.kind v.sf
  match v.marshalText with
  | some tm =>
    match tm v.val with
    | .ok b => { f with Value := b }
    | .error _ => f
  | none =>
    match v.stringer with
    | some str => { f with Value := str v.val }
    | none => { f with Value := sprintVal L v.kind v.val }

/-- The loop of `buildSection` of `view.go` over the members of the section. -/
def sectionFields (L : GoLib) : List Slot → List Field
  | [] => []
  | subFieldVal :: rest =>
    if subFieldVal.sf.PkgPath ≠ "" then sectionFields L rest
    else buildField L subFieldVal :: sectionFields L rest

/-- The function `buildSection` of `view.go`. -/
def buildSection (L : GoLib) (v : Member) : Section :=
  { Title := v.sf.Name, Subtitle := "", Action := v.sf.Name,
    Fields := sectionFields L v.fields }

/-- The loop of `buildPage` of `view.go` over the members of the root. -/
def pageSections (L : GoLib) : List Member → List Section
  | [] => []
  | fieldVal :: rest =>
    if fieldVal.sf.PkgPath ≠ "" ∨ fieldVal.kind ≠ Kind.Struct then pageSections L rest
    else buildSection L fieldVal :: pageSections L rest

/-- The method `buildPage` of `view.go`. -/
def buildPage (L : GoLib) (p : configPage) : configPage :=
  { p with
    Title := p.config.typeName
    Sections := pageSections L p.config.members
    HasAssets := p.hasAssetsHandler }

/-! ## The configuration of the tests -/

/-- A small `GoLib` to evaluate examples: `ParseFloat` reads a decimal
literal of digits only below `2 ^ 53`, which binary64 holds exactly, and
rejects every other text; `toFloat32` leaves the value as it is; `Sprint`
writes the float zero as "0" and a value of another kind by the text that
names it, and writes no other float; `Quote` puts the text between double
quotes, as Go does for a text of plain letters and digits.  The theorems
below are stated for every `GoLib`. -/
def exampleLib : GoLib where
  ParseFloat := fun s =>
    match ParseUint s with
    | .ok n =>
      if n = 0 then .ok 0
      else if n < 2 ^ 53 then
        .ok ((1023 + Nat.log2 n) * 2 ^ 52 + (n * 2 ^ (52 - Nat.log2 n) - 2 ^ 52))
      else .error (GoError.NumError "ParseFloat" s NumCause.ErrRange)
    | .error _ => .error (GoError.NumError "ParseFloat" s NumCause.ErrSyntax)
  toFloat32 := fun x => x
  Sprint := fun _ v =>
    match v with
    | GoVal.other text => text
    | GoVal.float 0 => "0"
    | _ => ""
  Quote := fun s => String.mk (Char.ofNat 34 :: s.data ++ [Char.ofNat 34])

/-- An exported member with no method of its own. -/
def plainSlot (name tag : String) (kind : Kind) (val : GoVal) : Slot :=
  { sf := { Name := name, PkgPath := "", Tag := tag }, kind := kind, val := val,
    unmarshalText := none, marshalText := none, stringer := none }

/-- Package path of the test package, carried by its non-exported members. -/
def testPkg : String := "github.com/gwangyi/webcfg/web_test"

/-- The method `UnmarshalText` of `MyTextUnmarshaler` in `view_test.go`. -/
def myUnmarshalText (text : String) (v : GoVal) : GoVal × Option GoError :=
  if text = "error" then (v, some (GoError.errorString "unmarshal error"))
  else (GoVal.other text, none)

/-- The method `MarshalText` of `MyTextUnmarshaler` in `view_test.go`. -/
def myMarshalText : GoVal → Except GoError String
  | GoVal.other value =>
    if value = "marshal_error" then .error (GoError.errorString "marshal error")
    else .ok value
  | _ => .ok ""

/-- The members of `TestConfig.Section1` of `view_test.go`, holding the given
values; a `MyTextUnmarshaler` is named by its member `Value`. -/
def section1Fields (s : String) (b : Bool) (i : Int) (u : Nat) (fl : Nat) (c ig un : String) :
    List Slot :=
  [ plainSlot "StringField" "string_field,String Field,text,icon,status,help"
      Kind.String (GoVal.str s),
    plainSlot "BoolField" ",,,," Kind.Bool (GoVal.bool b),
    plainSlot "IntField" "" Kind.Int (GoVal.int i),
    plainSlot "UintField" "uint_field" Kind.Uint (GoVal.uint u),
    plainSlot "FloatField" "float_field" Kind.Float64 (GoVal.float fl),
    { sf := { Name := "CustomField", PkgPath := "", Tag := "custom_field" },
      kind := Kind.Struct, val := GoVal.other c,
      unmarshalText := some myUnmarshalText, marshalText := some myMarshalText,
      stringer := none },
    plainSlot "IgnoredField" "-" Kind.String (GoVal.str ig),
    { sf := { Name := "unexported", PkgPath := testPkg, Tag := "" },
      kind := Kind.String, val := GoVal.str un,
      unmarshalText := none, marshalText := none, stringer := none } ]

/-- The members of `TestConfig.Section2` of `view_test.go`, all zero but the
first, which holds `i8`. -/
def section2Fields (i8 : Int) : List Slot :=
  [ plainSlot "Int8Field" "" Kind.Int8 (GoVal.int i8),
    plainSlot "Int16Field" "" Kind.Int16 (GoVal.int 0),
    plainSlot "Int32Field" "" Kind.Int32 (GoVal.int 0),
    plainSlot "Int64Field" "" Kind.Int64 (GoVal.int 0),
    plainSlot "Uint8Field" "" Kind.Uint8 (GoVal.uint 0),
    plainSlot "Uint16Field" "" Kind.Uint16 (GoVal.uint 0),
    plainSlot "Uint32Field" "" Kind.Uint32 (GoVal.uint 0),
    plainSlot "Uint64Field" "" Kind.Uint64 (GoVal.uint 0),
    plainSlot "Float32Field" "" Kind.Float32 (GoVal.float 0) ]

/-- A root member of struct kind. -/
def structMember (name pkgPath : String) (fields : List Slot) : Member :=
  { sf := { Name := name, PkgPath := pkgPath, Tag := "" }, kind := Kind.Struct,
    fields := fields, val := GoVal.other "" }

/-- The struct `TestConfig` of `view_test.go` with the given `Section1`. -/
def TestConfig (section1 : List Slot) : Config :=
  { typeName := "TestConfig",
    members :=
      [ structMember "Section1" "" section1,
        structMember "Section2" "" (section2Fields 0),
        structMember "unexportedSection" testPkg [plainSlot "Field" "" Kind.String (GoVal.str "")] ] }

/-- The handler `web.New` makes for a root object none of whose members
exposes a hook. -/
def newPage (c : Config) : configPage :=
  { Title := "", Subtitle := "", Notifications := [], Sections := [], HasAssets := false,
    config := c, hasAssetsHandler := false,
    Updated := fun _ => none, Initialize := fun _ => none }

/-- A request whose form parses to the given single-valued keys. -/
def formRequest (kvs : List (String × String)) : Request :=
  { parseFormErr := none, Form := kvs.map (fun kv => (kv.1, [kv.2])) }

/-- The values held by the members of a section, in declaration order. -/
def slotVals (fields : List Slot) : List GoVal :=
  fields.map (fun f => f.val)

/-- The values held by the root object: for each member its own value and the
values of its members. -/
def Config.vals (c : Config) : List (GoVal × List GoVal) :=
  c.members.map (fun m => (m.val, slotVals m.fields))

/-! ## Notions used to state the properties -/

/-- The signed integer kinds, as `handleField` lists them. -/
def isIntKind : Kind → Bool
  | Kind.Int | Kind.Int8 | Kind.Int16 | Kind.Int32 | Kind.Int64 => true
  | _ => false

/-- The unsigned integer kinds, as `handleField` lists them. -/
def isUintKind : Kind → Bool
  | Kind.Uint | Kind.Uint8 | Kind.Uint16 | Kind.Uint32 | Kind.Uint64 => true
  | _ => false

/-- The floating-point kinds. -/
def isFloatKind : Kind → Bool
  | Kind.Float32 | Kind.Float64 => true
  | _ => false

/-- The number zero as a value of a numeric kind (for a float, the bits of
`+0`). -/
def zeroVal (kind : Kind) : GoVal :=
  if isIntKind kind then GoVal.int 0
  else if isUintKind kind then GoVal.uint 0
  else GoVal.float 0

/-- The name under which a member is looked up in the submission: the `Name`
of its descriptor. -/
def resolvedName (v : Slot) : String :=
  (parseTag v.kind v.sf).Name

/-- The text submitted for a member (empty when its key is absent). -/
def submitted (r : Request) (v : Slot) : String :=
  r.FormValue (resolvedName v)

/-- A member of a section is exported. -/
def Slot.exported (v : Slot) : Bool :=
  v.sf.PkgPath = ""

/-- A member of the root is one that `buildPage` makes a section of. -/
def Member.isSection (m : Member) : Bool :=
  m.sf.PkgPath = "" ∧ m.kind = Kind.Struct

/-- The members `pre` after a decode pass in which none of them fails: each
exported one holds what `handleField` leaves, the others are as before. -/
def decoded (L : GoLib) (r : Request) (pre : List Slot) : List Slot :=
  pre.map (fun v => if v.exported then (handleField L false v (submitted r v)).1 else v)

/-- The error with which the numeric parser of the kind rejects the text,
if it does. -/
def parseFailure (L : GoLib) (kind : Kind) (s : String) : Option GoError :=
  if isIntKind kind then
    match ParseInt s with
    | .error e => some e
    | .ok _ => none
  else if isUintKind kind then
    match ParseUint s with
    | .error e => some e
    | .ok _ => none
  else if isFloatKind kind then
    match L.ParseFloat s with
    | .error e => some e
    | .ok _ => none
  else none

/-- The text the numeric handlers parse: the empty text is read as zero. -/
def numeral (valStr : String) : String :=
  if valStr = "" then "0" else valStr

/-- The section of the example: a string member `Name` renamed `user_name`
and a boolean member `Active`. -/
def profileFields (name : String) (active : Bool) : List Slot :=
  [ plainSlot "Name" "user_name" Kind.String (GoVal.str name),
    plainSlot "Active" "" Kind.Bool (GoVal.bool active) ]

/-- A root object with the one section `Profile`. -/
def profileConfig (name : String) (active : Bool) : Config :=
  { typeName := "AppConfig", members := [structMember "Profile" "" (profileFields name active)] }

/-- An `Updated` hook with a pointer receiver that overwrites the member `Name`
of its own section `Profile` and returns nil. -/
def renameHook (name : String) : Hook := fun c ns =>
  ({ c with members := c.members.map (fun m =>
      if m.sf.Name = "Profile" then
        { m with fields := m.fields.map (fun v =>
            if v.sf.Name = "Name" then { v with val := GoVal.str name } else v) }
      else m) }, ns, none)

/-- The handler for `profileConfig` when `Profile` exposes `renameHook`. -/
def hookedPage (c : Config) (name : String) : configPage :=
  { newPage c with Updated := fun n => if n = "Profile" then some (renameHook name) else none }

/-- A `Section1` holding values that differ from the zero values. -/
def sampleSection1 : List Slot :=
  section1Fields "old" false 7 8 0 "c" "keep" "u"

/-- The handler of the tests, over `sampleSection1`. -/
def samplePage : configPage :=
  newPage (TestConfig sampleSection1)

/-! ## `errors`: inspecting a chain of causes

An error value of the model stands for one Go value, so that `==` on
comparable errors is the equality of the model.  Of the errors of the model,
a `*strconv.NumError` has the method `Unwrap`, which gives one of the two
values `strconv.ErrSyntax` and `strconv.ErrRange`, and a `*ParseError` has
the methods `Is` and `As` of `update.go`; no other has a method that
`errors.Is` or `errors.As` looks for. -/

/-- The values of the type can be compared with `==`. -/
def comparableErr : GoError → Bool
  | GoError.uncomparable _ _ => false
  | _ => true

/-- The value `strconv.ErrSyntax` or `strconv.ErrRange`. -/
def sentinel : NumCause → GoError
  | NumCause.ErrSyntax => GoError.errorString "invalid syntax"
  | NumCause.ErrRange => GoError.errorString "value out of range"

/-- The call `errors.Is(err, target)` on errors that are not nil: `err` is
`target` when the type of `target` is comparable, or the method `Is` of `err`
accepts `target` (for a `*ParseError`, `errors.Is(p.Err, target)`), or the
same holds of what `Unwrap` gives. -/
def errorsIs : GoError → GoError → Bool
  | GoError.ParseError m f cause, target =>
    (comparableErr target && decide (GoError.ParseError m f cause = target))
      || errorsIs cause target
  | GoError.NumError fn num c, target =>
    (comparableErr target && decide (GoError.NumError fn num c = target))
      || (comparableErr target && decide (sentinel c = target))
  | err, target => comparableErr target && decide (err = target)

/-- The method `ParseError.Is` of `update.go`. -/
def ParseError.Is (p : ParseError) (err : GoError) : Bool :=
  errorsIs p.Err err

/-- The type a target of `errors.As` points to: one of the error types of the
model, or the interface `error` itself. -/
inductive TargetType
  | errorString
  | NumError
  | ParseError
  | custom (typeName : String)
  | uncomparable (typeName : String)
  | errorInterface
  deriving DecidableEq, Repr

/-- The error can be assigned to a variable of the type. -/
def assignableTo : GoError → TargetType → Bool
  | _, TargetType.errorInterface => true
  | GoError.errorString _, TargetType.errorString => true
  | GoError.NumError _ _ _, TargetType.NumError => true
  | GoError.ParseError _ _ _, TargetType.ParseError => true
  | GoError.custom n _, TargetType.custom n1 => n = n1
  | GoError.uncomparable n _, TargetType.uncomparable n1 => n = n1
  | _, _ => false

/-- The call `errors.As(err, target)` on an error that is not nil, for a
target pointing to the given type: the error stored in the target when the
call succeeds. -/
def errorsAs : GoError → TargetType → Option GoError
  | GoError.ParseError m f cause, t =>
    if assignableTo (GoError.ParseError m f cause) t then some (GoError.ParseError m f cause)
    else errorsAs cause t
  | GoError.NumError fn num c, t =>
    if assignableTo (GoError.NumError fn num c) t then some (GoError.NumError fn num c)
    else if assignableTo (sentinel c) t then some (sentinel c)
    else none
  | err, t => if assignableTo err t then some err else none

/-- The method `ParseError.As` of `update.go`: the error stored in the target
when it succeeds. -/
def ParseError.As (p : ParseError) (target : TargetType) : Option GoError :=
  errorsAs p.Err target

/-! ## `page.go`: construction -/

/-- The loop of `initialize` over the members of the root type, from the
first one still to visit; the root object and the notification queue are
passed along. -/
def initializeLoop (hooks : String → Option Hook) :
    List StructField → Config → List Notification → Config × List Notification × Option GoError
  | [], c, ns => (c, ns, none)
  | sf :: rest, c, ns =>
    if sf.PkgPath ≠ "" then initializeLoop hooks rest c ns
    else
      match hooks sf.Name with
      | some init =>
        match init c ns with
        | (c1, ns1, some err) => (c1, ns1, some err)
        | (c1, ns1, none) => initializeLoop hooks rest c1 ns1
      | none => initializeLoop hooks rest c ns

/-- The method `initialize` of `page.go` (the name is a reserved word here). -/
def initializePage (p : configPage) : configPage × Option GoError :=
  match initializeLoop p.Initialize (p.config.members.map (fun m => m.sf)) p.config
      p.Notifications with
  | (c, ns, e) => ({ p with config := c, Notifications := ns }, e)

/-- The function `New` of `page.go`, for a root object whose members expose
the given hooks, with or without the option `WithAssets`: the root object as
the call leaves it, and the handler or the error it returns. -/
def New (config : Config) (withAssets : Bool) (Updated Initialize : String → Option Hook) :
    Config × Except GoError configPage :=
  let cfg : configPage :=
    { Title := "", Subtitle := "", Notifications := [], Sections := [], HasAssets := false,
      config := config, hasAssetsHandler := withAssets,
      Updated := Updated, Initialize := Initialize }
  match initializePage cfg with
  | (q, some err) => (q.config, .error err)
  | (q, none) => (q.config, .ok q)

/-! ## Further notions used to state the properties -/

/-- The text at position `i` of the parts of a tag, when there is one and it
is not empty. -/
def partAt (parts : List String) (i : Nat) : Option String :=
  match parts.get? i with
  | some s => if s = "" then none else some s
  | none => none

/-- The descriptor that the positional rule gives for a member named `m` of
kind `k` with tag `t`, the label being given apart: position 0 is the name,
2 the type, 3 the icon, 4 the status, 5 the help, each when present and not
empty. -/
def positional (k : Kind) (m t : String) (label : String) : Field :=
  { Name := (partAt (Split t) 0).getD m
    Label := label
    Value := ""
    Typ := (partAt (Split t) 2).getD (if k = Kind.Bool then "checkbox" else "text")
    Icon := (partAt (Split t) 3).getD ""
    Status := (partAt (Split t) 4).getD ""
    Help := (partAt (Split t) 5).getD ""
    Readonly := false }

/-- The hooks `Initialize` that the exported members of the root expose, in
declaration order. -/
def initHooks (Initialize : String → Option Hook) (members : List Member) : List Hook :=
  (members.filter (fun m => m.sf.PkgPath = "")).filterMap (fun m => Initialize m.sf.Name)

/-- The hooks run one after the other, each on what the one before left, up
to the first that returns an error. -/
def runHooks : List Hook → Config → List Notification →
    Config × List Notification × Option GoError
  | [], c, ns => (c, ns, none)
  | h :: hs, c, ns =>
    match h c ns with
    | (c1, ns1, some err) => (c1, ns1, some err)
    | (c1, ns1, none) => runHooks hs c1 ns1

/-- A page with the same root object and notification queue but other
`Updated` hooks. -/
def withUpdated (p : configPage) (Updated : String → Option Hook) : configPage :=
  { p with Updated := Updated }

/-! ## Further configurations -/

/-- The member `CustomField` of `TestConfig.Section1`, of type
`MyTextUnmarshaler`, holding the given `Value`. -/
def customField (c : String) : Slot :=
  { sf := { Name := "CustomField", PkgPath := "", Tag := "custom_field" },
    kind := Kind.Struct, val := GoVal.other c,
    unmarshalText := some myUnmarshalText, marshalText := some myMarshalText,
    stringer := none }

/-- The method `UnmarshalText` of a type `Toggle` of kind bool that is written
"yes" or "no". -/
def toggleUnmarshal (text : String) (v : GoVal) : GoVal × Option GoError :=
  if text = "yes" then (GoVal.bool true, none)
  else if text = "no" then (GoVal.bool false, none)
  else (v, some (GoError.errorString "neither yes nor no"))

/-- The method `MarshalText` of the type `Toggle`. -/
def toggleMarshal : GoVal → Except GoError String
  | GoVal.bool true => .ok "yes"
  | _ => .ok "no"

/-- A member `Enabled` of type `Toggle`. -/
def toggleSlot (b : Bool) : Slot :=
  { sf := { Name := "Enabled", PkgPath := "", Tag := "" },
    kind := Kind.Bool, val := GoVal.bool b,
    unmarshalText := some toggleUnmarshal, marshalText := some toggleMarshal,
    stringer := none }

/-- An `UnmarshalText` that rejects every text with an error of a slice type
(as `scanner.ErrorList` of the Go library is), which Go cannot compare. -/
def listUnmarshal (text : String) (v : GoVal) : GoVal × Option GoError :=
  (v, some (GoError.uncomparable "ErrorList" text))

/-- A root object with the one section `Rules`, whose member `Expr` is of a
string type with `listUnmarshal`. -/
def rulesConfig : Config :=
  { typeName := "AppConfig",
    members :=
      [ structMember "Rules" ""
          [ { sf := { Name := "Expr", PkgPath := "", Tag := "" }, kind := Kind.String,
              val := GoVal.str "", unmarshalText := some listUnmarshal, marshalText := none,
              stringer := none } ] ] }

/-- The root object with the exported member `name` of the section `sect`
holding `val`. -/
def writeMember (c : Config) (sect name : String) (val : GoVal) : Config :=
  { c with members := c.members.map (fun m =>
      if m.sf.Name = sect then
        { m with fields := m.fields.map (fun v =>
            if v.sf.Name = name then { v with val := val } else v) }
      else m) }

/-- The struct `UpdateTestConfig` of `update_test.go`, its member
`Section.UpdatedCalled` holding the given value. -/
def updateTestConfig (called : Bool) : Config :=
  { typeName := "UpdateTestConfig",
    members :=
      [ structMember "Section" "" [plainSlot "UpdatedCalled" "" Kind.Bool (GoVal.bool called)],
        structMember "ErrSection" "" [],
        structMember "ValueSection" "" [] ] }

/-- An `Updated` hook like that of `UpdateSuccessSection` in `update_test.go`:
it sets `UpdatedCalled`; it also queues one notification, so that every call
leaves a trace. -/
def updatedCalledHook : Hook := fun c ns =>
  (writeMember c "Section" "UpdatedCalled" (GoVal.bool true),
    ns ++ [{ Message := "updated", Status := "info" }], none)

/-- The method `Updated` of `UpdateErrSection` in `update_test.go`. -/
def updateErrHook : Hook := fun c ns =>
  (c, ns, some (GoError.errorString "update error"))

/-- The handler of `TestUpdateReceiver`. -/
def updateTestPage (called : Bool) : configPage :=
  { newPage (updateTestConfig called) with
    Updated := fun n =>
      if n = "Section" then some updatedCalledHook
      else if n = "ErrSection" then some updateErrHook
      else if n = "ValueSection" then some (fun c ns => (c, ns, none))
      else none }

/-- An `Updated` hook of the section `Profile` that overwrites the member
`Name` and then returns an error. -/
def rejectHook : Hook := fun c ns =>
  (writeMember c "Profile" "Name" (GoVal.str "bob"), ns,
    some (GoError.errorString "rejected"))

/-- The handler for `profileConfig` when `Profile` exposes `rejectHook`. -/
def rejectingPage (c : Config) : configPage :=
  { newPage c with Updated := fun n => if n = "Profile" then some rejectHook else none }

/-- The method `Initialize` of `InitSuccessSection` in `page_test.go`, for
the member `sect` of the root. -/
def initSuccessHook (sect : String) : Hook := fun c ns =>
  (writeMember c sect "Initialized" (GoVal.bool true), ns, none)

/-- The method `Initialize` of `InitErrSection` in `page_test.go`. -/
def initErrHook : Hook := fun c ns =>
  (c, ns, some (GoError.errorString "init error"))

/-- A root object with three exported sections and one that is not exported,
each with a boolean member `Initialized` that is false. -/
def initConfig : Config :=
  { typeName := "InitConfig",
    members :=
      [ structMember "First" "" [plainSlot "Initialized" "" Kind.Bool (GoVal.bool false)],
        structMember "hidden" testPkg [plainSlot "Initialized" "" Kind.Bool (GoVal.bool false)],
        structMember "Second" "" [plainSlot "Initialized" "" Kind.Bool (GoVal.bool false)],
        structMember "Third" "" [plainSlot "Initialized" "" Kind.Bool (GoVal.bool false)] ] }

/-- The hooks of `initConfig` when the second exported section fails to
initialize and the others succeed. -/
def initSecondFails (n : String) : Option Hook :=
  if n = "Second" then some initErrHook
  else if n = "First" ∨ n = "hidden" ∨ n = "Third" then some (initSuccessHook n)
  else none

/-- The hooks of `initConfig` when every section succeeds. -/
def initAllSucceed (n : String) : Option Hook :=
  if n = "First" ∨ n = "hidden" ∨ n = "Second" ∨ n = "Third" then some (initSuccessHook n)
  else none

/-! ## `fmt`: the text of an error -/

/-- An operand of `fmt.Sprintf`: a string, or an error, given by the text its
method `Error` returns. -/
inductive FmtArg
  | str (s : String)
  | err (text : String)
  deriving DecidableEq, Repr

/-- The text `fmt` prints for an operand under the verbs `s` and `v`. -/
def FmtArg.text : FmtArg → String
  | FmtArg.str s => s
  | FmtArg.err text => text

/-- The output of `fmt.Sprintf` for the directives the repository uses: the
verbs `s` and `v` with a string or an error as operand, and the literal
percent sign; an operand that is missing is reported as Go reports it.  Other
directives do not occur; they are copied as they stand, and operands left over
are dropped. -/
def sprintfChars : List Char → List FmtArg → List Char
  | [], _ => []
  | '%' :: '%' :: rest, args => '%' :: sprintfChars rest args
  | '%' :: 's' :: rest, a :: args => a.text.data ++ sprintfChars rest args
  | '%' :: 'v' :: rest, a :: args => a.text.data ++ sprintfChars rest args
  | '%' :: 's' :: rest, [] => "%!s(MISSING)".data ++ sprintfChars rest []
  | '%' :: 'v' :: rest, [] => "%!v(MISSING)".data ++ sprintfChars rest []
  | c :: rest, args => c :: sprintfChars rest args

/-- The call `fmt.Sprintf(format, args...)`. -/
def Sprintf (format : String) (args : List FmtArg) : String :=
  String.mk (sprintfChars format.data args)

/-- The text the method `Error` of an error returns; for a `*ParseError` it
is the method `Error` of `update.go`. -/
def errorText (L : GoLib) : GoError → String
  | GoError.errorString s => s
  | GoError.NumError fn num NumCause.ErrSyntax =>
    "strconv." ++ fn ++ ": parsing " ++ L.Quote num ++ ": invalid syntax"
  | GoError.NumError fn num NumCause.ErrRange =>
    "strconv." ++ fn ++ ": parsing " ++ L.Quote num ++ ": value out of range"
  | GoError.ParseError m f cause =>
    Sprintf "%s field %s: %v" [FmtArg.str m, FmtArg.str f, FmtArg.err (errorText L cause)]
  | GoError.custom _ text => text
  | GoError.uncomparable _ text => text

/-- The method `ParseError.Error` of `update.go`. -/
def ParseError.Error (L : GoLib) (p : ParseError) : String :=
  Sprintf "%s field %s: %v"
    [FmtArg.str p.Message, FmtArg.str p.Field, FmtArg.err (errorText L p.Err)]

/-- Width in bits of an integer kind narrower than 64 bits. -/
def narrowBits : Kind → Option Nat
  | Kind.Int8 => some 8
  | Kind.Int16 => some 16
  | Kind.Int32 => some 32
  | Kind.Uint8 => some 8
  | Kind.Uint16 => some 16
  | Kind.Uint32 => some 32
  | _ => none

/-! ## `page.go`: notifications and the index page -/

/-- The method `Page.Notify` of `page.go`. -/
def Page.Notify (p : Page) (n : Notification) : Page :=
  { p with Notifications := p.Notifications ++ [n] }

/-- The method `Notify` as a `configPage` has it, through its embedded `Page`. -/
def configPage.Notify (p : configPage) (n : Notification) : configPage :=
  { p with toPage := p.toPage.Notify n }

/-- What the engine leaves in the `http.ResponseWriter`. -/
structure Response where
  status : Nat
  body : String
  deriving DecidableEq, Repr

/-- The response of `serveIndex` for what `writeIndex` wrote and returned: on an
error `http.Error` adds the text of the error, with status 500 unless a part of
the page was written already. -/
def indexResponse (L : GoLib) : String × Option GoError → Response
  | (out, none) => { status := 200, body := out }
  | (out, some err) =>
    { status := if out = "" then 500 else 200, body := out ++ errorText L err ++ "\n" }

/-- The method `serveIndex` of `page.go`; `writeIndex` stands for the method of
that name, which renders the template: it gives what it writes for a page and
the error it returns. -/
def serveIndex (L : GoLib) (writeIndex : Page → String × Option GoError) (p : configPage) :
    configPage × Response :=
  let q := buildPage L p
  ({ q with Notifications := [] }, indexResponse L (writeIndex q.toPage))

/-- A `writeIndex` that fails before it writes, as in `TestServeHTTP_WriteError`. -/
def failingWriteIndex : Page → String × Option GoError :=
  fun _ => ("", some (GoError.errorString "mock fs error"))

/-- A `writeIndex` that writes the messages of the queue, one per line. -/
def listingWriteIndex : Page → String × Option GoError :=
  fun p => (String.join (p.Notifications.map (fun n => n.Message ++ "\n")), none)

/-! ## Notions for the built-in encode -/

/-- The base-10 numeral of an integer: its digits without padding, after a
"-" when it is negative. -/
def decimalInt (n : Int) : String :=
  if n < 0 then "-" ++ Nat.repr n.natAbs else Nat.repr n.natAbs

/-- Width in bits of an integer kind. -/
def bitsOf : Kind → Nat
  | Kind.Int | Kind.Uint | Kind.Uintptr => IntSize
  | Kind.Int8 | Kind.Uint8 => 8
  | Kind.Int16 | Kind.Uint16 => 16
  | Kind.Int32 | Kind.Uint32 => 32
  | Kind.Int64 | Kind.Uint64 => 64
  | _ => 0

/-- The member holds a value of its kind, as the type system of Go has it: a
boolean for the boolean kind, a string for the string kind, an integer in the
range of the kind for an integer kind, a float for a float kind, and a value
the engine does not interpret for the other kinds. -/
def wellTyped (v : Slot) : Bool :=
  match v.val with
  | GoVal.bool _ => v.kind = Kind.Bool
  | GoVal.str _ => v.kind = Kind.String
  | GoVal.int n =>
    isIntKind v.kind ∧ - 2 ^ (bitsOf v.kind - 1) ≤ n ∧ n < 2 ^ (bitsOf v.kind - 1)
  | GoVal.uint n => (isUintKind v.kind ∨ v.kind = Kind.Uintptr) ∧ n < 2 ^ bitsOf v.kind
  | GoVal.float _ => isFloatKind v.kind
  | GoVal.other _ =>
    ¬ (v.kind = Kind.Bool ∨ v.kind = Kind.String ∨ isIntKind v.kind ∨ isUintKind v.kind
      ∨ v.kind = Kind.Uintptr ∨ isFloatKind v.kind)

/-- A well-typed member of boolean, string, signed or unsigned integer kind
whose type has no text method of its own: neither `UnmarshalText` nor
`MarshalText`, nor a `String` or `Error` method that `fmt.Sprint` would use. -/
def builtinMember (v : Slot) : Bool :=
  (v.kind = Kind.Bool ∨ v.kind = Kind.String ∨ isIntKind v.kind ∨ isUintKind v.kind)
    ∧ v.unmarshalText.isNone ∧ v.marshalText.isNone ∧ v.stringer.isNone ∧ wellTyped v

/-- The submission that holds, for every descriptor `buildSection` gives for
the members, the value of the descriptor under its name. -/
def renderedForm (L : GoLib) (fields : List Slot) : Request :=
  formRequest ((sectionFields L fields).map (fun f => (f.Name, f.Value)))

/-- The method `String` of a type `Level` of kind int, as the tool `stringer`
writes it for the constants `Low` and `High`. -/
def levelString : GoVal → String
  | GoVal.int 0 => "Low"
  | GoVal.int 1 => "High"
  | GoVal.int n => "Level(" ++ decimalInt n ++ ")"
  | _ => ""

/-- A member `Level` of type `Level`. -/
def levelSlot (n : Int) : Slot :=
  { sf := { Name := "Level", PkgPath := "", Tag := "" }, kind := Kind.Int,
    val := GoVal.int n, unmarshalText := none, marshalText := none,
    stringer := some levelString }

/-- A root object with the one section `Logging`, whose only member is of type
`Level`. -/
def loggingConfig (n : Int) : Config :=
  { typeName := "AppConfig", members := [structMember "Logging" "" [levelSlot n]] }

/-- A section `Server` with a string, a boolean, a narrow signed and a narrow
unsigned member, and a member that is not exported. -/
def serverFields : List Slot :=
  [ plainSlot "Host" "host,Host Name" Kind.String (GoVal.str "example.org"),
    plainSlot "Verbose" "" Kind.Bool (GoVal.bool true),
    plainSlot "Offset" "" Kind.Int8 (GoVal.int (-7)),
    plainSlot "Port" "port" Kind.Uint16 (GoVal.uint 8080),
    { sf := { Name := "cache", PkgPath := "main", Tag := "" }, kind := Kind.Map,
      val := GoVal.other "map[]", unmarshalText := none, marshalText := none,
      stringer := none } ]

/-- A root object with the one section `Server`. -/
def serverConfig : Config :=
  { typeName := "AppConfig", members := [structMember "Server" "" serverFields] }

/-- The method `UnmarshalText` of a type `Celsius`, a struct of one integer
`Deg`, declared on the pointer receiver: it reads a base-10 numeral. -/
def celsiusUnmarshal (text : String) (v : GoVal) : GoVal × Option GoError :=
  match ParseInt text with
  | .ok k => (GoVal.other ("\x7b" ++ decimalInt k ++ "\x7d"), none)
  | .error _ => (v, some (GoError.errorString "bad degrees"))

/-- A member `Target` of type `Celsius`, whose `MarshalText` and
`UnmarshalText` are both declared on the pointer receiver: the value of the
member has no `MarshalText`, a pointer to the member has `UnmarshalText`; the
struct is named by the text `fmt.Sprint` writes for it. -/
def celsiusSlot (deg : Int) : Slot :=
  { sf := { Name := "Target", PkgPath := "", Tag := "" }, kind := Kind.Struct,
    val := GoVal.other ("\x7b" ++ decimalInt deg ++ "\x7d"),
    unmarshalText := some celsiusUnmarshal, marshalText := none, stringer := none }

/-- A member `Since` of a pointer type `*Stamp`, where `Stamp` has `MarshalText`
on the value receiver and `UnmarshalText` on the pointer receiver, as
`time.Time` has: `MarshalText` is found on the value of the member, which is
the pointer, and no `UnmarshalText` is found on a pointer to the member, whose
type `**Stamp` has no method; the stamp pointed to is named by its text. -/
def stampPtrSlot (text : String) : Slot :=
  { sf := { Name := "Since", PkgPath := "", Tag := "" }, kind := Kind.Pointer,
    val := GoVal.other text,
    unmarshalText := none,
    marshalText := some (fun v =>
      match v with
      | GoVal.other t => .ok t
      | _ => .ok ""),
    stringer := none }

/-- The handler for `profileConfig` when `Profile` exposes the hook of
`UpdateErrSection`, which returns an error and writes nothing. -/
def erroringPage (c : Config) : configPage :=
  { newPage c with Updated := fun n => if n = "Profile" then some updateErrHook else none }

/-! ## Properties of the decode of one member -/

theorem parseInt_zero : ParseInt "0" = .ok 0 := by decide

theorem parseUint_zero : ParseUint "0" = .ok 0 := by decide

/-- C7. Boolean decode is total: on a member of boolean kind `handleField`
returns no error for any text, and leaves `true` exactly when the text is
"on" or "true" and `false` for every other text, the empty one included. -/
theorem handleField_bool_total (L : GoLib) (v : Slot) (s : String)
    (hk : v.kind = Kind.Bool) :
    handleField L false v s
      = ({ v with val := GoVal.bool (decide (s = "on" ∨ s = "true")) }, Outcome.nil) := by
  by_cases h : s = "on" ∨ s = "true"
  · simp [handleField, handleBool, SetBool, afterSet, hk, h]
  · simp [handleField, handleBool, SetBool, afterSet, hk, h]

theorem handleField_bool_total_witness :
    (plainSlot "BoolField" ",,,," Kind.Bool (GoVal.bool false)).kind = Kind.Bool ∧
    handleField exampleLib false (plainSlot "BoolField" ",,,," Kind.Bool (GoVal.bool false)) "on"
      = ({ plainSlot "BoolField" ",,,," Kind.Bool (GoVal.bool false) with
            val := GoVal.bool (decide ("on" = "on" ∨ "on" = "true")) }, Outcome.nil) :=
  ⟨by decide, handleField_bool_total exampleLib _ "on" (by decide)⟩

/-- C8. Empty numeric text decodes to zero: on a member of signed, unsigned or
floating-point kind of any width that has no `UnmarshalText`, `handleField`
with the empty text returns no error and leaves zero, whatever the member held
(`ParseFloat` reading "0" as zero, which `float32` keeps). -/
theorem handleField_empty_numeric_zero (L : GoLib) (v : Slot)
    (hparse : L.ParseFloat "0" = .ok 0) (hconv : L.toFloat32 0 = 0)
    (hcodec : v.unmarshalText = none)
    (hk : isIntKind v.kind = true ∨ isUintKind v.kind = true ∨ isFloatKind v.kind = true) :
    handleField L false v "" = ({ v with val := zeroVal v.kind }, Outcome.nil) := by
  cases hkind : v.kind <;> simp [hkind, isIntKind, isUintKind, isFloatKind] at hk <;>
    simp [handleField, handleInt, handleUint, handleFloat, hkind, hcodec, parseInt_zero,
      parseUint_zero, hparse, hconv, SetInt, SetUint, SetFloat, afterSet, zeroVal, isIntKind,
      isUintKind, wrapInt, wrapUint, IntSize]

theorem handleField_empty_numeric_zero_witness :
    (exampleLib.ParseFloat "0" = .ok 0 ∧ exampleLib.toFloat32 0 = 0 ∧
      (plainSlot "Int8Field" "" Kind.Int8 (GoVal.int 7)).unmarshalText = none ∧
      (isIntKind Kind.Int8 = true ∨ isUintKind Kind.Int8 = true ∨ isFloatKind Kind.Int8 = true)) ∧
    handleField exampleLib false (plainSlot "Int8Field" "" Kind.Int8 (GoVal.int 7)) ""
      = ({ plainSlot "Int8Field" "" Kind.Int8 (GoVal.int 7) with val := zeroVal Kind.Int8 },
          Outcome.nil) :=
  ⟨⟨by decide, rfl, rfl, by decide⟩,
    handleField_empty_numeric_zero exampleLib (plainSlot "Int8Field" "" Kind.Int8 (GoVal.int 7))
      (by decide) rfl rfl (by decide)⟩

/-! ## The decode pass over a section -/

/-- Members that are not exported are skipped by the loop. -/
theorem updateLoop_skip (L : GoLib) (ro : Bool) (r : Request) (v : Slot) (rest : List Slot)
    (h : v.exported = false) :
    updateLoop L ro r (v :: rest)
      = (v :: (updateLoop L ro r rest).1, (updateLoop L ro r rest).2) := by
  have h1 : v.sf.PkgPath ≠ "" := by simpa [Slot.exported] using h
  simp [updateLoop, h1]

/-- An exported member that decodes without error is replaced by what
`handleField` leaves, and the loop goes on. -/
theorem updateLoop_step (L : GoLib) (ro : Bool) (r : Request) (v : Slot) (rest : List Slot)
    (h : v.exported = true) (hok : (handleField L ro v (submitted r v)).2 = Outcome.nil) :
    updateLoop L ro r (v :: rest)
      = ((handleField L ro v (submitted r v)).1 :: (updateLoop L ro r rest).1,
          (updateLoop L ro r rest).2) := by
  have h1 : v.sf.PkgPath = "" := by simpa [Slot.exported] using h
  rcases hf : handleField L ro v (submitted r v) with ⟨w, o⟩
  rw [hf] at hok
  simp only at hok
  subst hok
  simp only [submitted, resolvedName] at hf
  simp [updateLoop, h1, hf]

/-- An exported member whose decode fails stops the loop: the members after it
are not processed and the error carries its resolved name. -/
theorem updateLoop_stop (L : GoLib) (ro : Bool) (r : Request) (v w : Slot) (rest : List Slot)
    (e : ParseError) (h : v.exported = true)
    (hfail : handleField L ro v (submitted r v) = (w, Outcome.err e)) :
    updateLoop L ro r (v :: rest)
      = (w :: rest, Outcome.err { e with Field := resolvedName v }) := by
  have h1 : v.sf.PkgPath = "" := by simpa [Slot.exported] using h
  simp only [submitted, resolvedName] at hfail
  simp [updateLoop, h1, hfail, resolvedName]

/-- The loop over members that all decode without error, followed by others. -/
theorem updateLoop_decoded (L : GoLib) (r : Request) (pre rest : List Slot)
    (hpre : ∀ A ∈ pre, A.exported = true →
      (handleField L false A (submitted r A)).2 = Outcome.nil) :
    updateLoop L false r (pre ++ rest)
      = (decoded L r pre ++ (updateLoop L false r rest).1, (updateLoop L false r rest).2) := by
  induction pre with
  | nil => simp [decoded]
  | cons A pre ih =>
    have ih1 := ih (fun X hX => hpre X (List.mem_cons_of_mem A hX))
    cases hA : A.exported with
    | false =>
      rw [List.cons_append, updateLoop_skip L false r A _ hA, ih1]
      simp [decoded, hA]
    | true =>
      rw [List.cons_append,
        updateLoop_step L false r A _ hA (hpre A (List.mem_cons_self A pre) hA), ih1]
      simp [decoded, hA]

/-- The call `updateConfig` when the form parses and the name is that of an
exported member of struct kind whose decode pass ends with an error. -/
theorem updateConfig_of_loop_err (L : GoLib) (p : configPage) (sectionName : String)
    (r : Request) (i : Nat) (m : Member) (fields : List Slot) (e : ParseError)
    (hform : r.parseFormErr = none)
    (hfind : FieldByName p.config.members sectionName = some (i, m))
    (hkind : m.kind = Kind.Struct) (hexp : m.sf.PkgPath = "")
    (hloop : updateLoop L false r m.fields = (fields, Outcome.err e)) :
    updateConfig L p sectionName r
      = ({ p with config := p.config.setFields i m fields }, Outcome.err e.asError) := by
  simp [updateConfig, hform, hfind, hkind, hexp, hloop]

/-- On a member of numeric kind with no `UnmarshalText`, a text that the
parser of the kind rejects gives the error "invalid integer" with the parser's
error as cause, and the member is left as it was. -/
theorem handleField_parse_failure (L : GoLib) (v : Slot) (s : String) (cause : GoError)
    (hcodec : v.unmarshalText = none)
    (hrej : parseFailure L v.kind (numeral s) = some cause) :
    handleField L false v s
      = (v, Outcome.err { Message := "invalid integer", Field := "", Err := cause }) := by
  cases hkind : v.kind <;>
    simp [hkind, parseFailure, isIntKind, isUintKind, isFloatKind] at hrej <;>
    simp only [handleField, handleInt, handleUint, handleFloat, hkind, hcodec, numeral] at hrej ⊢ <;>
    simp <;>
    split at hrej <;> simp_all

/-! ## Properties of `updateConfig` -/

/-- C1. Fail-fast update: when the form parses, the name is that of an exported
member of struct kind, and `B` is the first exported member of it whose decode
fails, `updateConfig` returns the error of `B` (carrying its resolved name);
every member before `B` holds what its decode left, `B` holds what its own
failed decode left, and every member after `B` is as it was before the call. -/
theorem updateConfig_fail_fast (L : GoLib) (p : configPage) (sectionName : String)
    (r : Request) (i : Nat) (m : Member) (pre post : List Slot) (B B1 : Slot)
    (e : ParseError)
    (hform : r.parseFormErr = none)
    (hfind : FieldByName p.config.members sectionName = some (i, m))
    (hkind : m.kind = Kind.Struct) (hexp : m.sf.PkgPath = "")
    (hfields : m.fields = pre ++ B :: post)
    (hpre : ∀ A ∈ pre, A.exported = true →
      (handleField L false A (submitted r A)).2 = Outcome.nil)
    (hB : B.exported = true)
    (hfail : handleField L false B (submitted r B) = (B1, Outcome.err e)) :
    updateConfig L p sectionName r
      = ({ p with config := p.config.setFields i m (decoded L r pre ++ B1 :: post) },
          Outcome.err (GoError.ParseError e.Message (resolvedName B) e.Err)) := by
  have hloop : updateLoop L false r m.fields
      = (decoded L r pre ++ B1 :: post, Outcome.err { e with Field := resolvedName B }) := by
    rw [hfields, updateLoop_decoded L r pre (B :: post) hpre,
      updateLoop_stop L false r B B1 post e hB hfail]
  rw [updateConfig_of_loop_err L p sectionName r i m _ _ hform hfind hkind hexp hloop]
  rfl

/-- C9. Numeric decode failure attribution: when the first exported member `B`
whose decode fails is of signed, unsigned or floating-point kind with no
`UnmarshalText`, and the parser of its kind rejects the text submitted for it
(the empty text being read as "0"), `updateConfig` returns the `ParseError`
with message "invalid integer", the resolved name of `B` and the error of the
parser as cause, and `B` keeps the value it had before the call. -/
theorem updateConfig_numeric_failure (L : GoLib) (p : configPage) (sectionName : String)
    (r : Request) (i : Nat) (m : Member) (pre post : List Slot) (B : Slot)
    (cause : GoError)
    (hform : r.parseFormErr = none)
    (hfind : FieldByName p.config.members sectionName = some (i, m))
    (hkind : m.kind = Kind.Struct) (hexp : m.sf.PkgPath = "")
    (hfields : m.fields = pre ++ B :: post)
    (hpre : ∀ A ∈ pre, A.exported = true →
      (handleField L false A (submitted r A)).2 = Outcome.nil)
    (hB : B.exported = true) (hcodec : B.unmarshalText = none)
    (hrej : parseFailure L B.kind (numeral (submitted r B)) = some cause) :
    updateConfig L p sectionName r
      = ({ p with config := p.config.setFields i m (decoded L r pre ++ B :: post) },
          Outcome.err (GoError.ParseError "invalid integer" (resolvedName B) cause)) := by
  have hfail := handleField_parse_failure L B (submitted r B) cause hcodec hrej
  have hloop : updateLoop L false r m.fields
      = (decoded L r pre ++ B :: post,
          Outcome.err { Message := "invalid integer", Field := resolvedName B, Err := cause }) := by
    rw [hfields, updateLoop_decoded L r pre (B :: post) hpre,
      updateLoop_stop L false r B B post _ hB hfail]
  rw [updateConfig_of_loop_err L p sectionName r i m _ _ hform hfind hkind hexp hloop]
  rfl

theorem updateConfig_fail_fast_witness :
    ((updateConfig exampleLib samplePage "Section1"
        (formRequest [("string_field", "new value"), ("BoolField", "on"),
          ("IntField", "invalid"), ("uint_field", "42")])).1.config.vals.head?,
      (updateConfig exampleLib samplePage "Section1"
        (formRequest [("string_field", "new value"), ("BoolField", "on"),
          ("IntField", "invalid"), ("uint_field", "42")])).2)
      = (some (GoVal.other "",
          [GoVal.str "new value", GoVal.bool true, GoVal.int 7, GoVal.uint 8, GoVal.float 0,
            GoVal.other "c", GoVal.str "keep", GoVal.str "u"]),
        Outcome.err (GoError.ParseError "invalid integer" "IntField"
          (GoError.NumError "ParseInt" "invalid" NumCause.ErrSyntax))) := by
  rw [updateConfig_fail_fast exampleLib samplePage "Section1"
    (formRequest [("string_field", "new value"), ("BoolField", "on"),
      ("IntField", "invalid"), ("uint_field", "42")])
    0 (structMember "Section1" "" sampleSection1)
    (sampleSection1.take 2) (sampleSection1.drop 3)
    (plainSlot "IntField" "" Kind.Int (GoVal.int 7))
    (plainSlot "IntField" "" Kind.Int (GoVal.int 7))
    { Message := "invalid integer", Field := "",
      Err := GoError.NumError "ParseInt" "invalid" NumCause.ErrSyntax }
    rfl rfl rfl rfl rfl (by decide) rfl rfl]
  rfl

theorem updateConfig_numeric_failure_witness :
    ((updateConfig exampleLib samplePage "Section1"
        (formRequest [("IntField", "5"), ("uint_field", "-1")])).1.config.vals.head?,
      (updateConfig exampleLib samplePage "Section1"
        (formRequest [("IntField", "5"), ("uint_field", "-1")])).2)
      = (some (GoVal.other "",
          [GoVal.str "", GoVal.bool false, GoVal.int 5, GoVal.uint 8, GoVal.float 0,
            GoVal.other "c", GoVal.str "keep", GoVal.str "u"]),
        Outcome.err (GoError.ParseError "invalid integer" "uint_field"
          (GoError.NumError "ParseUint" "-1" NumCause.ErrSyntax))) := by
  rw [updateConfig_numeric_failure exampleLib samplePage "Section1"
    (formRequest [("IntField", "5"), ("uint_field", "-1")])
    0 (structMember "Section1" "" sampleSection1)
    (sampleSection1.take 3) (sampleSection1.drop 4)
    (plainSlot "UintField" "uint_field" Kind.Uint (GoVal.uint 8))
    (GoError.NumError "ParseUint" "-1" NumCause.ErrSyntax)
    rfl rfl rfl rfl rfl (by decide) rfl rfl rfl]
  rfl

/-- A decode pass that ends without error has decoded every exported member. -/
theorem updateLoop_nil (L : GoLib) (r : Request) (fields : List Slot)
    (hok : (updateLoop L false r fields).2 = Outcome.nil) :
    (updateLoop L false r fields).1 = decoded L r fields := by
  induction fields with
  | nil => simp [updateLoop, decoded]
  | cons A rest ih =>
    cases hA : A.exported with
    | false =>
      rw [updateLoop_skip L false r A rest hA] at hok ⊢
      have ih1 := ih hok
      simp only [decoded] at ih1
      simp [decoded, hA, ih1]
    | true =>
      have h1 : A.sf.PkgPath = "" := by simpa [Slot.exported] using hA
      rcases hf : handleField L false A (submitted r A) with ⟨w, o⟩
      cases o with
      | nil =>
        have hnil : (handleField L false A (submitted r A)).2 = Outcome.nil := by rw [hf]
        rw [updateLoop_step L false r A rest hA hnil] at hok ⊢
        have ih1 := ih hok
        simp only [decoded] at ih1
        simp [decoded, hA, ih1]
      | err e =>
        rw [updateLoop_stop L false r A w rest e hA hf] at hok
        simp at hok
      | panic msg =>
        simp only [submitted, resolvedName] at hf
        simp [updateLoop, h1, hf] at hok

/-- On a member of string kind with no `UnmarshalText`, `handleField` stores
the text as it is. -/
theorem handleField_string (L : GoLib) (v : Slot) (s : String)
    (hk : v.kind = Kind.String) (hcodec : v.unmarshalText = none) :
    handleField L false v s = ({ v with val := GoVal.str s }, Outcome.nil) := by
  simp [handleField, hk, hcodec, SetString, afterSet]

/-- C6, as amended. Update is keyed by the resolved name: when `updateConfig`
returns nil for a section, the decode pass over the section has ended without
error, and in the members it leaves every exported member of string kind with
no `UnmarshalText` holds exactly the text submitted under its resolved name
(the empty text when that key is absent).  These members are what the call
leaves when the section exposes no `Updated` hook, and what the hook receives
when it exposes one. -/
theorem updateConfig_keyed_by_name (L : GoLib) (p : configPage) (sectionName : String)
    (r : Request) (i : Nat) (m : Member)
    (hfind : FieldByName p.config.members sectionName = some (i, m))
    (hok : (updateConfig L p sectionName r).2 = Outcome.nil) :
    (updateLoop L false r m.fields).2 = Outcome.nil ∧
    (∀ j v, m.fields.get? j = some v → v.exported = true → v.kind = Kind.String →
      v.unmarshalText = none →
      ((updateLoop L false r m.fields).1.get? j).map Slot.val
        = some (GoVal.str (r.FormValue (resolvedName v)))) ∧
    (p.Updated m.sf.Name = none →
      (updateConfig L p sectionName r).1.config
        = p.config.setFields i m (updateLoop L false r m.fields).1) ∧
    (∀ ur, p.Updated m.sf.Name = some ur →
      (updateConfig L p sectionName r).1.config
        = (ur (p.config.setFields i m (updateLoop L false r m.fields).1) p.Notifications).1) := by
  cases hform : r.parseFormErr with
  | some err => simp [updateConfig, hform] at hok
  | none =>
    by_cases hkind : m.kind = Kind.Struct
    swap
    · simp [updateConfig, hform, hfind, hkind] at hok
    by_cases hexp : m.sf.PkgPath = ""
    swap
    · simp only [updateConfig, hform, hfind] at hok
      rcases hl : updateLoop L true r m.fields with ⟨fs, o⟩
      cases o <;> simp [hkind, hexp, hl] at hok
    rcases hl : updateLoop L false r m.fields with ⟨fs, o⟩
    cases o with
    | err e => simp [updateConfig, hform, hfind, hkind, hexp, hl] at hok
    | panic msg => simp [updateConfig, hform, hfind, hkind, hexp, hl] at hok
    | nil =>
      have hdec : fs = decoded L r m.fields := by
        have := updateLoop_nil L r m.fields (by rw [hl])
        rw [hl] at this
        exact this
      refine ⟨rfl, ?_, ?_, ?_⟩
      · intro j v hj hv hk hc
        simp only [hdec, decoded, List.get?_eq_getElem?, List.getElem?_map] at hj ⊢
        rw [hj]
        simp [hv, handleField_string L v _ hk hc, submitted]
      · intro hnone
        simp [updateConfig, hform, hfind, hkind, hexp, hl, hnone]
      · intro ur hur
        rcases hu : ur (p.config.setFields i m fs) p.Notifications with ⟨c, ns, oe⟩
        cases oe <;> simp [updateConfig, hform, hfind, hkind, hexp, hl, hur, hu]

theorem updateConfig_keyed_by_name_witness :
    (updateConfig exampleLib (newPage (profileConfig "" false)) "Profile"
        (formRequest [("user_name", "alice"), ("Active", "on")])).2 = Outcome.nil ∧
    (updateConfig exampleLib (newPage (profileConfig "" false)) "Profile"
        (formRequest [("user_name", "alice"), ("Active", "on")])).1.config.vals
      = [(GoVal.other "", [GoVal.str "alice", GoVal.bool true])] := by
  have h := updateConfig_keyed_by_name exampleLib (newPage (profileConfig "" false)) "Profile"
    (formRequest [("user_name", "alice"), ("Active", "on")]) 0
    (structMember "Profile" "" (profileFields "" false)) rfl (by decide)
  refine ⟨by decide, ?_⟩
  rw [h.2.2.1 rfl]
  decide

/-- C6, as first stated, fails when the section exposes an `Updated` hook that
writes to its own section: the call returns nil, "alice" was submitted under
the resolved name `user_name`, and the member `Name` ends up holding "bob". -/
theorem updateConfig_hook_overwrites :
    (updateConfig exampleLib (hookedPage (profileConfig "" false) "bob") "Profile"
        (formRequest [("user_name", "alice"), ("Active", "on")])).2 = Outcome.nil ∧
    (formRequest [("user_name", "alice"), ("Active", "on")]).FormValue "user_name" = "alice" ∧
    (updateConfig exampleLib (hookedPage (profileConfig "" false) "bob") "Profile"
        (formRequest [("user_name", "alice"), ("Active", "on")])).1.config.vals
      = [(GoVal.other "", [GoVal.str "bob", GoVal.bool true])] := by
  decide

/-- A name that no member of the root has, or that names a member of another
kind than struct, gives the error "section ... not found" and leaves the page
and the root object as they were. -/
theorem updateConfig_section_not_found (L : GoLib) (p : configPage) (sectionName : String)
    (r : Request) (hform : r.parseFormErr = none)
    (hmiss : ∀ i m, FieldByName p.config.members sectionName = some (i, m) →
      m.kind ≠ Kind.Struct) :
    updateConfig L p sectionName r
      = (p, Outcome.err (GoError.errorString ("section " ++ sectionName ++ " not found"))) := by
  cases hfind : FieldByName p.config.members sectionName with
  | none => simp [updateConfig, hform, hfind]
  | some im =>
    have hk := hmiss im.1 im.2 hfind
    simp [updateConfig, hform, hfind, hk]

/-- C2 at a non-exported member of struct kind: for the name
`unexportedSection` of `TestConfig`, which `buildPage` makes no section of,
`updateConfig` does not return the error "section ... not found": it panics
in `reflect`. -/
theorem updateConfig_unexported_section_panics :
    (∀ s ∈ (buildPage exampleLib samplePage).Sections, s.Action ≠ "unexportedSection") ∧
    (updateConfig exampleLib samplePage "unexportedSection" (formRequest [])).2
      = Outcome.panic interfacePanic := by
  decide

/-! ## Properties of the display schema -/

/-- The loop of `buildSection` keeps the exported members, in order. -/
theorem sectionFields_eq (L : GoLib) (fields : List Slot) :
    sectionFields L fields = (fields.filter Slot.exported).map (buildField L) := by
  induction fields with
  | nil => rfl
  | cons v rest ih =>
    by_cases h : v.sf.PkgPath = "" <;> simp [sectionFields, Slot.exported, List.filter, h, ih]

/-- The loop of `buildPage` keeps the exported members of struct kind, in
order. -/
theorem pageSections_eq (L : GoLib) (members : List Member) :
    pageSections L members = (members.filter Member.isSection).map (buildSection L) := by
  induction members with
  | nil => rfl
  | cons m rest ih =>
    by_cases h1 : m.sf.PkgPath = "" <;> by_cases h2 : m.kind = Kind.Struct <;>
      simp [pageSections, Member.isSection, List.filter, h1, h2, ih]

/-- C5. Schema order and visibility: `buildPage` leaves one section for each
exported member of struct kind of the root, in declaration order, with title
and action the name of the member, and the fields of a section are the
descriptors of the exported members of that struct, in declaration order;
members that are not exported, and root members of another kind, give none. -/
theorem buildPage_sections (L : GoLib) (p : configPage) :
    (buildPage L p).Sections
      = (p.config.members.filter Member.isSection).map (fun m =>
          { Title := m.sf.Name, Subtitle := "", Action := m.sf.Name,
            Fields := (m.fields.filter Slot.exported).map (buildField L) }) := by
  simp only [buildPage, pageSections_eq]
  apply List.map_congr_left
  intro m _
  simp [buildSection, sectionFields_eq]

/-- C3 at `TestConfig.Section1`: the member `IgnoredField`, whose tag is "-",
is given a descriptor like any other exported member, with the name "-" and
its current value. -/
theorem buildSection_keeps_sentinel :
    (buildSection exampleLib (structMember "Section1" "" sampleSection1)).Fields.map
        (fun f => (f.Name, f.Value))
      = [("string_field", "old"), ("BoolField", "false"), ("IntField", "7"),
          ("uint_field", "8"), ("float_field", "0"), ("custom_field", "c"), ("-", "keep")] := by
  decide

/-! ## Further evaluations of `updateConfig` on the configuration of the tests -/

/-- C4 at `TestConfig.Section1`: the member `IgnoredField`, whose tag is "-"
and which holds "keep", is overwritten by `updateConfig`: with the empty text
when the submission has no key, and with the text submitted under the key
"-" when it has that key.  Both calls return nil. -/
theorem updateConfig_overwrites_sentinel :
    slotVals sampleSection1
      = [GoVal.str "old", GoVal.bool false, GoVal.int 7, GoVal.uint 8, GoVal.float 0,
          GoVal.other "c", GoVal.str "keep", GoVal.str "u"] ∧
    (updateConfig exampleLib samplePage "Section1" (formRequest [])).2 = Outcome.nil ∧
    (updateConfig exampleLib samplePage "Section1" (formRequest [])).1.config.vals.head?
      = some (GoVal.other "",
          [GoVal.str "", GoVal.bool false, GoVal.int 0, GoVal.uint 0, GoVal.float 0,
            GoVal.other "", GoVal.str "", GoVal.str "u"]) ∧
    (updateConfig exampleLib samplePage "Section1" (formRequest [("-", "x")])).2 = Outcome.nil ∧
    (updateConfig exampleLib samplePage "Section1" (formRequest [("-", "x")])).1.config.vals.head?
      = some (GoVal.other "",
          [GoVal.str "", GoVal.bool false, GoVal.int 0, GoVal.uint 0, GoVal.float 0,
            GoVal.other "", GoVal.str "x", GoVal.str "u"]) := by
  decide

/-- C10 at `TestConfig.Section2`: the text "300" for the member `Int8Field` of
kind `int8` and the text "256" for the member `Uint8Field` of kind `uint8` are
not rejected: `updateConfig` returns nil and the members hold 44 and 0. -/
theorem updateConfig_narrow_int_wraps :
    (updateConfig exampleLib samplePage "Section2"
        (formRequest [("Int8Field", "300"), ("Uint8Field", "256")])).2 = Outcome.nil ∧
    ((updateConfig exampleLib samplePage "Section2"
        (formRequest [("Int8Field", "300"), ("Uint8Field", "256")])).1.config.vals.get? 1).map
          Prod.snd
      = some [GoVal.int 44, GoVal.int 0, GoVal.int 0, GoVal.int 0, GoVal.uint 0, GoVal.uint 0,
          GoVal.uint 0, GoVal.uint 0, GoVal.float 0] := by
  decide

/-! ## Properties of `parseTag` -/

/-- The text at a position, in the terms of the tests `parseTag` makes. -/
theorem partAt_eq (parts : List String) (i : Nat) :
    partAt parts i
      = if i < parts.length ∧ parts.getD i "" ≠ "" then some (parts.getD i "") else none := by
  unfold partAt
  by_cases hi : i < parts.length
  · simp [List.get?_eq_getElem?, List.getElem?_eq_getElem hi, List.getD_eq_getElem?_getD, hi]
  · have : parts.get? i = none := by simp [List.get?_eq_getElem?]; omega
    rw [this]
    simp [hi]

/-- Positions below `n` are those of the first `n` parts. -/
theorem partAt_take (parts : List String) (n i : Nat) (h : i < n) :
    partAt (parts.take n) i = partAt parts i := by
  simp [partAt, List.get?_eq_getElem?, List.getElem?_take, h]

theorem split_empty : Split "" = [""] := by decide

/-- Six conditional updates of a descriptor, one after the other, as `parseTag`
makes them. -/
theorem updates_eq (c0 c1 c2 c3 c4 c5 : Prop) [Decidable c0] [Decidable c1] [Decidable c2]
    [Decidable c3] [Decidable c4] [Decidable c5] (a0 a1 a2 a3 a4 a5 : String) (f : Field) :
    (let f := if c0 then { f with Name := a0, Label := a0 } else f
     let f := if c1 then { f with Label := a1 } else f
     let f := if c2 then { f with Typ := a2 } else f
     let f := if c3 then { f with Icon := a3 } else f
     let f := if c4 then { f with Status := a4 } else f
     let f := if c5 then { f with Help := a5 } else f
     f) =
      { Name := (if c0 then some a0 else none).getD f.Name
        Label := (if c1 then some a1 else none).getD ((if c0 then some a0 else none).getD f.Label)
        Value := f.Value
        Typ := (if c2 then some a2 else none).getD f.Typ
        Icon := (if c3 then some a3 else none).getD f.Icon
        Status := (if c4 then some a4 else none).getD f.Status
        Help := (if c5 then some a5 else none).getD f.Help
        Readonly := f.Readonly } := by
  by_cases h0 : c0 <;> by_cases h1 : c1 <;> by_cases h2 : c2 <;> by_cases h3 : c3 <;>
    by_cases h4 : c4 <;> by_cases h5 : c5 <;> simp [h0, h1, h2, h3, h4, h5]

/-- The descriptor `parseTag` returns, member by member. -/
theorem parseTag_eq (k : Kind) (sf : StructField) :
    parseTag k sf =
      { Name := (partAt (Split sf.Tag) 0).getD sf.Name
        Label := (partAt (Split sf.Tag) 1).getD ((partAt (Split sf.Tag) 0).getD sf.Name)
        Value := ""
        Typ := (partAt (Split sf.Tag) 2).getD (if k = Kind.Bool then "checkbox" else "text")
        Icon := (partAt (Split sf.Tag) 3).getD ""
        Status := (partAt (Split sf.Tag) 4).getD ""
        Help := (partAt (Split sf.Tag) 5).getD ""
        Readonly := false } := by
  by_cases ht : sf.Tag = ""
  · rw [ht, split_empty]
    by_cases hk : k = Kind.Bool <;> simp [parseTag, ht, hk, partAt]
  · have h := updates_eq (0 < (Split sf.Tag).length ∧ (Split sf.Tag).getD 0 "" ≠ "")
      (1 < (Split sf.Tag).length ∧ (Split sf.Tag).getD 1 "" ≠ "")
      (2 < (Split sf.Tag).length ∧ (Split sf.Tag).getD 2 "" ≠ "")
      (3 < (Split sf.Tag).length ∧ (Split sf.Tag).getD 3 "" ≠ "")
      (4 < (Split sf.Tag).length ∧ (Split sf.Tag).getD 4 "" ≠ "")
      (5 < (Split sf.Tag).length ∧ (Split sf.Tag).getD 5 "" ≠ "")
      ((Split sf.Tag).getD 0 "") ((Split sf.Tag).getD 1 "") ((Split sf.Tag).getD 2 "")
      ((Split sf.Tag).getD 3 "") ((Split sf.Tag).getD 4 "") ((Split sf.Tag).getD 5 "")
      (if k = Kind.Bool then
        { Name := sf.Name, Label := sf.Name, Value := "", Typ := "checkbox",
          Icon := "", Status := "", Help := "", Readonly := false }
      else
        { Name := sf.Name, Label := sf.Name, Value := "", Typ := "text",
          Icon := "", Status := "", Help := "", Readonly := false })
    have hp : parseTag k sf = _ := (if_pos ht).trans h
    rw [hp]
    simp only [partAt_eq]
    by_cases hk : k = Kind.Bool <;> simp [hk]

/-- C15. `parseTag` follows the positional rule and is total: for every kind,
member name and tag it returns a descriptor whose name is position 0 of the
tag split on "," when present and not empty and the member name otherwise,
whose type is position 2 when present and not empty and otherwise "checkbox"
for a boolean member and "text" for another, whose icon, status and help are
positions 3, 4 and 5 when present and not empty and otherwise empty, and whose
`Readonly` is false; an empty or absent tag gives the member name as name and
as label; and two tags with the same first six parts give the same
descriptor. -/
theorem parseTag_positional (k : Kind) (sf : StructField) :
    parseTag k sf = positional k sf.Name sf.Tag (parseTag k sf).Label ∧
    (sf.Tag = "" → (parseTag k sf).Name = sf.Name ∧ (parseTag k sf).Label = sf.Name) ∧
    (∀ t : String, (Split t).take 6 = (Split sf.Tag).take 6 →
      parseTag k { sf with Tag := t } = parseTag k sf) := by
  refine ⟨?_, ?_, ?_⟩
  · rw [parseTag_eq k sf]
    rfl
  · intro ht
    rw [parseTag_eq k sf, ht, split_empty]
    simp [partAt]
  · intro t ht
    have hpart : ∀ i, i < 6 → partAt (Split t) i = partAt (Split sf.Tag) i := by
      intro i hi
      rw [← partAt_take (Split t) 6 i hi, ← partAt_take (Split sf.Tag) 6 i hi, ht]
    rw [parseTag_eq k sf, parseTag_eq k { sf with Tag := t }]
    simp only [hpart 0 (by omega), hpart 1 (by omega), hpart 2 (by omega), hpart 3 (by omega),
      hpart 4 (by omega), hpart 5 (by omega)]

theorem parseTag_positional_witness :
    parseTag Kind.String
        { Name := "StringField", PkgPath := "",
          Tag := "string_field,String Field,text,icon,status,help,more" }
      = { Name := "string_field", Label := "String Field", Value := "", Typ := "text",
          Icon := "icon", Status := "status", Help := "help", Readonly := false } := by
  rw [(parseTag_positional Kind.String
    { Name := "StringField", PkgPath := "",
      Tag := "string_field,String Field,text,icon,status,help" }).2.2
    "string_field,String Field,text,icon,status,help,more" (by decide)]
  decide

/-- C16, as amended. The label defaults to the resolved name: when position 1
of the tag is missing or empty, the label of the descriptor is its name, which
is position 0 of the tag when present and not empty and the member name
otherwise. -/
theorem parseTag_label_default (k : Kind) (sf : StructField)
    (h1 : partAt (Split sf.Tag) 1 = none) :
    (parseTag k sf).Label = (parseTag k sf).Name ∧
    (parseTag k sf).Name = (partAt (Split sf.Tag) 0).getD sf.Name := by
  rw [parseTag_eq k sf]
  simp [h1]

theorem parseTag_label_default_witness :
    (parseTag Kind.Float64 { Name := "FloatField", PkgPath := "", Tag := "float_field" }).Label
      = "float_field" := by
  rw [(parseTag_label_default Kind.Float64
    { Name := "FloatField", PkgPath := "", Tag := "float_field" } (by decide)).1]
  decide

/-- C16, as first stated, fails on the member `UintField` of the tests: its
tag "uint_field" has no position 1, and the label is "uint_field", not the
member name. -/
theorem parseTag_label_follows_name :
    partAt (Split "uint_field") 1 = none ∧
    (parseTag Kind.Uint { Name := "UintField", PkgPath := "", Tag := "uint_field" }).Label
      = "uint_field" ∧
    (parseTag Kind.Uint { Name := "UintField", PkgPath := "", Tag := "uint_field" }).Label
      ≠ "UintField" := by
  decide

/-! ## Properties of the text methods of a member -/

/-- The descriptor `parseTag` returns has no value. -/
theorem parseTag_Value (k : Kind) (sf : StructField) : (parseTag k sf).Value = "" := by
  rw [parseTag_eq k sf]

/-- On a member that is not of boolean kind and has `UnmarshalText`,
`handleField` is the call of that method. -/
theorem handleField_codec (L : GoLib) (v : Slot)
    (tu : String → GoVal → GoVal × Option GoError) (s : String)
    (hk : v.kind ≠ Kind.Bool) (hu : v.unmarshalText = some tu) :
    handleField L false v s
      = ({ v with val := (tu s v.val).1 },
          match (tu s v.val).2 with
          | none => Outcome.nil
          | some e => Outcome.err { Message := "failed to unmarshal", Field := "", Err := e }) := by
  rcases h : tu s v.val with ⟨w, oe⟩
  cases oe <;> simp [handleField, hk, hu, h]

/-- C14. Encode failure degrades to an empty value: for an exported member
whose `MarshalText` fails, `buildField` returns the descriptor of `parseTag`
as it is, whose value is empty, and `buildSection` still gives, before and
after it, the descriptors of the other exported members of the section. -/
theorem buildField_marshal_failure (L : GoLib) (m : Member) (pre post : List Slot) (v : Slot)
    (tm : GoVal → Except GoError String) (e : GoError)
    (hfields : m.fields = pre ++ v :: post) (hexp : v.exported = true)
    (hm : v.marshalText = some tm) (hfail : tm v.val = .error e) :
    buildField L v = parseTag v.kind v.sf ∧
    (buildField L v).Value = "" ∧
    (buildSection L m).Fields
      = (pre.filter Slot.exported).map (buildField L)
        ++ parseTag v.kind v.sf :: (post.filter Slot.exported).map (buildField L) := by
  have hb : buildField L v = parseTag v.kind v.sf := by
    simp [buildField, hm, hfail]
  refine ⟨hb, ?_, ?_⟩
  · rw [hb, parseTag_Value]
  · simp [buildSection, sectionFields_eq, hfields, List.filter_append, List.filter_cons, hexp, hb]

theorem buildField_marshal_failure_witness :
    (buildSection exampleLib
        (structMember "Section1" "" (section1Fields "s" true 1 2 0 "marshal_error" "" ""))).Fields.map
        (fun f => (f.Name, f.Value))
      = [("string_field", "s"), ("BoolField", "true"), ("IntField", "1"), ("uint_field", "2"),
          ("float_field", "0"), ("custom_field", ""), ("-", "")] := by
  rw [(buildField_marshal_failure exampleLib
    (structMember "Section1" "" (section1Fields "s" true 1 2 0 "marshal_error" "" ""))
    ((section1Fields "s" true 1 2 0 "marshal_error" "" "").take 5)
    ((section1Fields "s" true 1 2 0 "marshal_error" "" "").drop 6)
    (customField "marshal_error") myMarshalText (GoError.errorString "marshal error")
    rfl rfl rfl rfl).2.2]
  decide

/-- Whether the type of a member has `MarshalText` plays no part in its
decode. -/
theorem handleField_marshal_irrelevant (L : GoLib) (v : Slot)
    (mt : Option (GoVal → Except GoError String)) (s : String) :
    handleField L false { v with marshalText := mt } s
      = ({ (handleField L false v s).1 with marshalText := mt }, (handleField L false v s).2) := by
  rcases v with ⟨sf, kind, val, um, mt0, st⟩
  by_cases hb : kind = Kind.Bool
  · subst hb
    by_cases hs : s = "on" ∨ s = "true" <;>
      simp [handleField, handleBool, SetBool, afterSet, hs]
  · cases um with
    | some tu =>
      rcases h : tu s val with ⟨w, oe⟩
      cases oe <;> simp [handleField, hb, h]
    | none =>
      cases kind <;> simp [handleField, handleInt, handleUint, handleFloat, SetString, SetInt,
        SetUint, SetFloat, afterSet] at hb ⊢ <;> split <;> simp

/-- C11, as amended. A custom codec overrides the built-in codec where the
engine looks for it, and not for the decode of a boolean member.  Encode: on a
member of any kind whose value has `MarshalText`, the value `buildField` shows
is the text `MarshalText` gives, whenever it gives one; on a member whose
value has no `MarshalText`, the value shown is the text of `fmt.Sprint`, also
when a pointer to the member has the methods of the codec.  Decode: on a
member that is not of boolean kind and for which a pointer to the member has
`UnmarshalText`, `handleField` decodes by calling `UnmarshalText` on the
submitted text and nothing else; on a member of boolean kind it applies the
rule of the checkbox and does not call `UnmarshalText`; whether the value has
`MarshalText` plays no part in the decode, so that a member of pointer kind
for which a pointer to the member has no `UnmarshalText` is left as it is,
whatever text is submitted. -/
theorem codec_overrides_builtin (L : GoLib) (v : Slot) :
    (∀ tm b, v.marshalText = some tm → tm v.val = .ok b → (buildField L v).Value = b) ∧
    (∀ tu, v.unmarshalText = some tu → v.kind ≠ Kind.Bool → ∀ s, handleField L false v s
      = ({ v with val := (tu s v.val).1 },
          match (tu s v.val).2 with
          | none => Outcome.nil
          | some e => Outcome.err { Message := "failed to unmarshal", Field := "", Err := e })) ∧
    (v.kind = Kind.Bool → ∀ s, handleField L false v s
      = ({ v with val := GoVal.bool (decide (s = "on" ∨ s = "true")) }, Outcome.nil)) ∧
    (∀ mt s, handleField L false { v with marshalText := mt } s
      = ({ (handleField L false v s).1 with marshalText := mt },
          (handleField L false v s).2)) ∧
    (v.unmarshalText = none → v.kind = Kind.Pointer →
      ∀ s, handleField L false v s = (v, Outcome.nil)) ∧
    (v.marshalText = none → (buildField L v).Value
      = match v.stringer with
        | some str => str v.val
        | none => sprintVal L v.kind v.val) := by
  refine ⟨?_, ?_, ?_, ?_, ?_, ?_⟩
  · intro tm b hm hb
    simp [buildField, hm, hb]
  · intro tu hu hk s
    exact handleField_codec L v tu s hk hu
  · intro hk s
    by_cases h : s = "on" ∨ s = "true" <;>
      simp [handleField, handleBool, SetBool, afterSet, hk, h]
  · intro mt s
    exact handleField_marshal_irrelevant L v mt s
  · intro hu hk s
    simp [handleField, hk, hu]
  · intro hm
    cases hs : v.stringer <;> simp [buildField, hm, hs]

theorem codec_overrides_builtin_witness :
    (buildField exampleLib (customField "shown")).Value = "shown" ∧
    (handleField exampleLib false (customField "old") "12").1.val = GoVal.other "12" ∧
    (handleField exampleLib false (customField "old") "12").2 = Outcome.nil ∧
    (buildField exampleLib (stampPtrSlot "2024-05-01T00:00:00Z")).Value
      = "2024-05-01T00:00:00Z" ∧
    handleField exampleLib false (stampPtrSlot "2024-05-01T00:00:00Z") "2025-01-01T00:00:00Z"
      = (stampPtrSlot "2024-05-01T00:00:00Z", Outcome.nil) := by
  have h := codec_overrides_builtin exampleLib (customField "old")
  have hp := codec_overrides_builtin exampleLib (stampPtrSlot "2024-05-01T00:00:00Z")
  refine ⟨by decide, ?_, ?_, ?_, ?_⟩
  · rw [h.2.1 myUnmarshalText rfl (by decide) "12"]
    decide
  · rw [h.2.1 myUnmarshalText rfl (by decide) "12"]
    decide
  · rw [hp.1 _ "2024-05-01T00:00:00Z" rfl rfl]
  · exact hp.2.2.2.2.1 rfl rfl "2025-01-01T00:00:00Z"

/-- C11, as first stated, fails on a member of boolean kind: for a member of
type `Toggle`, whose `UnmarshalText` reads "yes" as true, `handleField` with
the text "yes" returns nil and leaves false, as the rule of the checkbox has
it. -/
theorem handleField_bool_ignores_codec :
    (toggleSlot false).kind = Kind.Bool ∧
    (toggleUnmarshal "yes" (GoVal.bool false)) = (GoVal.bool true, none) ∧
    (handleField exampleLib false (toggleSlot false) "yes").1.val = GoVal.bool false ∧
    (handleField exampleLib false (toggleSlot false) "yes").2 = Outcome.nil := by
  decide

/-- C12, as amended. Custom-codec round trip, for a member that is not of
boolean kind, whose value has `MarshalText` and for which a pointer to the
member has `UnmarshalText`: when `MarshalText` gives a text for the value of
the member and `UnmarshalText` of that text restores the value over the prior
content of the member, decoding the value `buildField` shows into the member
returns no error and leaves the member holding the value.  For a member of
pointer kind for which a pointer to the member has no `UnmarshalText`, the
decode returns no error and the member keeps its prior content.  For a member
that is not of boolean kind, whose value has no `MarshalText` and for which a
pointer to the member has `UnmarshalText`, the value shown is the text of
`fmt.Sprint` and the decode is the call of `UnmarshalText` on that text over
the prior content. -/
theorem codec_round_trip (L : GoLib) (v : Slot) (prior : GoVal) :
    (∀ (tm : GoVal → Except GoError String) (tu : String → GoVal → GoVal × Option GoError)
        (text : String),
      v.kind ≠ Kind.Bool → v.marshalText = some tm → v.unmarshalText = some tu →
      tm v.val = .ok text → tu text prior = (v.val, none) →
      handleField L false { v with val := prior } (buildField L v).Value = (v, Outcome.nil)) ∧
    (v.unmarshalText = none → v.kind = Kind.Pointer →
      handleField L false { v with val := prior } (buildField L v).Value
        = ({ v with val := prior }, Outcome.nil)) ∧
    (∀ (tu : String → GoVal → GoVal × Option GoError),
      v.kind ≠ Kind.Bool → v.marshalText = none → v.unmarshalText = some tu →
      (buildField L v).Value
        = (match v.stringer with
          | some str => str v.val
          | none => sprintVal L v.kind v.val) ∧
      handleField L false { v with val := prior } (buildField L v).Value
        = ({ v with val := (tu (buildField L v).Value prior).1 },
            match (tu (buildField L v).Value prior).2 with
            | none => Outcome.nil
            | some e =>
              Outcome.err { Message := "failed to unmarshal", Field := "", Err := e })) := by
  refine ⟨?_, ?_, ?_⟩
  · intro tm tu text hk hm hu henc hdec
    have hval : (buildField L v).Value = text := by simp [buildField, hm, henc]
    rw [hval, handleField_codec L { v with val := prior } tu text hk hu]
    simp [hdec]
  · intro hu hk
    simp [handleField, hk, hu]
  · intro tu hk hm hu
    refine ⟨?_, ?_⟩
    · cases hs : v.stringer <;> simp [buildField, hm, hs]
    · rw [handleField_codec L { v with val := prior } tu (buildField L v).Value hk hu]

theorem codec_round_trip_witness :
    handleField exampleLib false { customField "hello" with val := GoVal.other "stale" }
        (buildField exampleLib (customField "hello")).Value
      = (customField "hello", Outcome.nil) :=
  (codec_round_trip exampleLib (customField "hello") (GoVal.other "stale")).1
    myMarshalText myUnmarshalText "hello" (by decide) rfl rfl rfl rfl

/-- The round trip of C12 also fails where the engine finds the codec on the
value only: a member of the pointer type `*Stamp` is shown through
`MarshalText`, and decoding the text shown into a member that holds another
stamp returns nil and leaves that other stamp. -/
theorem round_trip_fails_for_pointer_member :
    (stampPtrSlot "2024-05-01T00:00:00Z").kind = Kind.Pointer ∧
    (buildField exampleLib (stampPtrSlot "2024-05-01T00:00:00Z")).Value
      = "2024-05-01T00:00:00Z" ∧
    (handleField exampleLib false (stampPtrSlot "1999-12-31T00:00:00Z")
      (buildField exampleLib (stampPtrSlot "2024-05-01T00:00:00Z")).Value).1.val
      = GoVal.other "1999-12-31T00:00:00Z" ∧
    (handleField exampleLib false (stampPtrSlot "1999-12-31T00:00:00Z")
      (buildField exampleLib (stampPtrSlot "2024-05-01T00:00:00Z")).Value).2 = Outcome.nil := by
  decide

/-- The round trip of C12 also fails where the engine finds no `MarshalText`
on the value: for a member of type `Celsius`, whose codec is declared on the
pointer receiver and reads "21" as 21 degrees, the value shown for 21 degrees
is the text of `fmt.Sprint`, the numeral between braces, and decoding it into
a member that holds 0 degrees returns the error of `UnmarshalText` and leaves
0 degrees. -/
theorem round_trip_fails_for_pointer_receiver_codec :
    (celsiusSlot 21).marshalText = none ∧
    celsiusUnmarshal "21" (celsiusSlot 0).val = ((celsiusSlot 21).val, none) ∧
    (buildField exampleLib (celsiusSlot 21)).Value = "\x7b21\x7d" ∧
    (handleField exampleLib false (celsiusSlot 0)
      (buildField exampleLib (celsiusSlot 21)).Value).1.val = (celsiusSlot 0).val ∧
    (handleField exampleLib false (celsiusSlot 0)
      (buildField exampleLib (celsiusSlot 21)).Value).2
      = Outcome.err { Message := "failed to unmarshal", Field := "",
                      Err := GoError.errorString "bad degrees" } := by
  refine ⟨rfl, by decide, by decide, by decide, by decide⟩

/-- C12, as first stated, fails on a member of boolean kind: the codec of
`Toggle` works (`MarshalText` writes true as "yes", which `UnmarshalText`
reads back as true over any prior content), yet decoding the value shown for
true into a member that holds false leaves false. -/
theorem round_trip_fails_for_bool :
    toggleMarshal (GoVal.bool true) = .ok "yes" ∧
    toggleUnmarshal "yes" (GoVal.bool false) = (GoVal.bool true, none) ∧
    (buildField exampleLib (toggleSlot true)).Value = "yes" ∧
    (handleField exampleLib false (toggleSlot false)
      (buildField exampleLib (toggleSlot true)).Value).1.val = GoVal.bool false := by
  decide

/-! ## Properties of the cause chain -/

/-- An error of a comparable type is itself for `errors.Is`. -/
theorem errorsIs_refl (e : GoError) (h : comparableErr e = true) : errorsIs e e = true := by
  cases e <;> simp_all [errorsIs, comparableErr]

/-- For `errors.Is`, a `*ParseError` is what it is itself or what its cause
is. -/
theorem errorsIs_parseError (m f : String) (cause target : GoError) :
    errorsIs (GoError.ParseError m f cause) target
      = ((comparableErr target && decide (GoError.ParseError m f cause = target))
          || errorsIs cause target) := by
  simp [errorsIs]

/-- C13, as amended. Custom decode failure is wrapped: when the first exported
member `B` whose decode fails is not of boolean kind and its `UnmarshalText`
returns the error `e` on the text submitted for it, `updateConfig` returns the
`ParseError` with message "failed to unmarshal", cause `e` and the resolved
name of `B`, the member holding what `UnmarshalText` left; `errors.Is` finds
`e` in that result whenever it finds `e` in `e` itself, which it does for
every `e` of a comparable type; and on a text for which `UnmarshalText`
returns nil `handleField` returns nil, whatever the kind of the member. -/
theorem updateConfig_unmarshal_failure (L : GoLib) (p : configPage) (sectionName : String)
    (r : Request) (i : Nat) (m : Member) (pre post : List Slot) (B : Slot)
    (tu : String → GoVal → GoVal × Option GoError) (w : GoVal) (e : GoError)
    (hform : r.parseFormErr = none)
    (hfind : FieldByName p.config.members sectionName = some (i, m))
    (hkind : m.kind = Kind.Struct) (hexp : m.sf.PkgPath = "")
    (hfields : m.fields = pre ++ B :: post)
    (hpre : ∀ A ∈ pre, A.exported = true →
      (handleField L false A (submitted r A)).2 = Outcome.nil)
    (hB : B.exported = true) (hbool : B.kind ≠ Kind.Bool)
    (hu : B.unmarshalText = some tu)
    (hfail : tu (submitted r B) B.val = (w, some e)) :
    updateConfig L p sectionName r
      = ({ p with config := p.config.setFields i m (decoded L r pre ++ { B with val := w } :: post) },
          Outcome.err (GoError.ParseError "failed to unmarshal" (resolvedName B) e)) ∧
    (errorsIs e e = true →
      errorsIs (GoError.ParseError "failed to unmarshal" (resolvedName B) e) e = true) ∧
    (comparableErr e = true → errorsIs e e = true) ∧
    (∀ s w1, tu s B.val = (w1, none) →
      handleField L false B s = ({ B with val := w1 }, Outcome.nil)) := by
  refine ⟨?_, ?_, errorsIs_refl e, ?_⟩
  · have hf : handleField L false B (submitted r B)
        = ({ B with val := w },
            Outcome.err { Message := "failed to unmarshal", Field := "", Err := e }) := by
      rw [handleField_codec L B tu _ hbool hu, hfail]
    have hloop : updateLoop L false r m.fields
        = (decoded L r pre ++ { B with val := w } :: post,
            Outcome.err
              { Message := "failed to unmarshal", Field := resolvedName B, Err := e }) := by
      rw [hfields, updateLoop_decoded L r pre (B :: post) hpre,
        updateLoop_stop L false r B _ post _ hB hf]
    rw [updateConfig_of_loop_err L p sectionName r i m _ _ hform hfind hkind hexp hloop]
    rfl
  · intro h
    rw [errorsIs_parseError, h]
    simp
  · intro s w1 h
    rw [handleField_codec L B tu s hbool hu, h]

theorem updateConfig_unmarshal_failure_witness :
    ((updateConfig exampleLib samplePage "Section1"
        (formRequest [("IntField", "5"), ("custom_field", "error")])).1.config.vals.head?,
      (updateConfig exampleLib samplePage "Section1"
        (formRequest [("IntField", "5"), ("custom_field", "error")])).2)
      = (some (GoVal.other "",
          [GoVal.str "", GoVal.bool false, GoVal.int 5, GoVal.uint 0, GoVal.float 0,
            GoVal.other "c", GoVal.str "keep", GoVal.str "u"]),
        Outcome.err (GoError.ParseError "failed to unmarshal" "custom_field"
          (GoError.errorString "unmarshal error"))) := by
  rw [(updateConfig_unmarshal_failure exampleLib samplePage "Section1"
    (formRequest [("IntField", "5"), ("custom_field", "error")])
    0 (structMember "Section1" "" sampleSection1)
    (sampleSection1.take 5) (sampleSection1.drop 6) (customField "c") myUnmarshalText
    (GoVal.other "c") (GoError.errorString "unmarshal error")
    rfl rfl rfl rfl rfl (by decide) rfl (by decide) rfl rfl).1]
  rfl

/-- C13, as first stated, fails for an error that Go cannot compare: when
`UnmarshalText` returns an error of a slice type, `updateConfig` returns the
`ParseError` that wraps it, and `errors.Is` does not find the error in it. -/
theorem errorsIs_misses_uncomparable :
    (updateConfig exampleLib (newPage rulesConfig) "Rules" (formRequest [("Expr", "a +")])).2
      = Outcome.err (GoError.ParseError "failed to unmarshal" "Expr"
          (GoError.uncomparable "ErrorList" "a +")) ∧
    errorsIs (GoError.ParseError "failed to unmarshal" "Expr"
        (GoError.uncomparable "ErrorList" "a +")) (GoError.uncomparable "ErrorList" "a +")
      = false := by
  decide

/-- C20. The inspection of a `ParseError` goes to its cause: `p.Is(e)` is
`errors.Is(p.Err, e)` and `p.As(target)` is `errors.As(p.Err, target)`;
`p.Is(p.Err)` holds for every cause of a comparable type; neither method
looks at the message or at the field name; and `errors.Is` and `errors.As`
applied to `p` itself find what `p` is or what these methods find. -/
theorem ParseError_inspection (p : ParseError) :
    (∀ e, p.Is e = errorsIs p.Err e) ∧
    (∀ t, p.As t = errorsAs p.Err t) ∧
    (comparableErr p.Err = true → p.Is p.Err = true) ∧
    (∀ (msg field : String) (e : GoError) (t : TargetType),
      ParseError.Is { p with Message := msg, Field := field } e = p.Is e ∧
      ParseError.As { p with Message := msg, Field := field } t = p.As t) ∧
    (∀ e, errorsIs p.asError e
      = ((comparableErr e && decide (p.asError = e)) || p.Is e)) ∧
    (∀ t, errorsAs p.asError t
      = if assignableTo p.asError t then some p.asError else p.As t) := by
  refine ⟨fun _ => rfl, fun _ => rfl, ?_, fun _ _ _ _ => ⟨rfl, rfl⟩, ?_, ?_⟩
  · intro h
    exact errorsIs_refl p.Err h
  · intro e
    simp [ParseError.asError, ParseError.Is, errorsIs]
  · intro t
    simp [ParseError.asError, ParseError.As, errorsAs]

theorem ParseError_inspection_witness :
    ParseError.Is { Message := "", Field := "", Err := GoError.custom "customError" "custom" }
      (GoError.custom "customError" "custom") = true :=
  (ParseError_inspection
    { Message := "", Field := "", Err := GoError.custom "customError" "custom" }).2.2.1
    (by decide)

/-! ## Properties of the hooks -/

/-- The call `updateConfig` when the form parses, the name is that of an
exported member of struct kind and the decode pass ends without error: the
hook of the section, if it has one, is applied to the root object with the
decoded members, and what it leaves and returns is what the call leaves and
returns. -/
theorem updateConfig_of_loop_nil (L : GoLib) (p : configPage) (sectionName : String)
    (r : Request) (i : Nat) (m : Member)
    (hform : r.parseFormErr = none)
    (hfind : FieldByName p.config.members sectionName = some (i, m))
    (hkind : m.kind = Kind.Struct) (hexp : m.sf.PkgPath = "")
    (hloop : (updateLoop L false r m.fields).2 = Outcome.nil) :
    updateConfig L p sectionName r
      = match p.Updated m.sf.Name with
        | some ur =>
          match ur (p.config.setFields i m (decoded L r m.fields)) p.Notifications with
          | (c, ns, some err) => ({ p with config := c, Notifications := ns }, Outcome.err err)
          | (c, ns, none) => ({ p with config := c, Notifications := ns }, Outcome.nil)
        | none =>
          ({ p with config := p.config.setFields i m (decoded L r m.fields) }, Outcome.nil) := by
  have hdec := updateLoop_nil L r m.fields hloop
  rcases hl : updateLoop L false r m.fields with ⟨fs, o⟩
  rw [hl] at hloop hdec
  simp only at hloop hdec
  subst hloop
  subst hdec
  simp [updateConfig, hform, hfind, hkind, hexp, hl]

/-- C17. The update hook runs once, and only after a decode pass without
error: when the form parses, then for a section that exposes `Updated` and
whose members all decode without error, what `updateConfig` leaves and returns
is what one call of the hook leaves and returns, the hook being given the root
object in which every exported member of the section holds its decoded value;
when a member fails to decode, or the name is that of no member of struct
kind, what `updateConfig` leaves and returns is the same whatever hooks the
page has, and the notification queue is as before the call. -/
theorem updateConfig_hook_once (L : GoLib) (p : configPage) (sectionName : String)
    (r : Request) (hform : r.parseFormErr = none) :
    (∀ i m ur, FieldByName p.config.members sectionName = some (i, m) →
      m.kind = Kind.Struct → m.sf.PkgPath = "" → p.Updated m.sf.Name = some ur →
      (updateLoop L false r m.fields).2 = Outcome.nil →
      updateConfig L p sectionName r
        = ({ p with
              config := (ur (p.config.setFields i m (decoded L r m.fields)) p.Notifications).1
              Notifications :=
                (ur (p.config.setFields i m (decoded L r m.fields)) p.Notifications).2.1 },
            match (ur (p.config.setFields i m (decoded L r m.fields)) p.Notifications).2.2 with
            | some err => Outcome.err err
            | none => Outcome.nil)) ∧
    (∀ i m fields e U, FieldByName p.config.members sectionName = some (i, m) →
      m.kind = Kind.Struct → m.sf.PkgPath = "" →
      updateLoop L false r m.fields = (fields, Outcome.err e) →
      updateConfig L (withUpdated p U) sectionName r
        = ({ withUpdated p U with config := p.config.setFields i m fields },
            Outcome.err e.asError)) ∧
    (∀ U, (∀ i m, FieldByName p.config.members sectionName = some (i, m) →
        m.kind ≠ Kind.Struct) →
      updateConfig L (withUpdated p U) sectionName r
        = (withUpdated p U,
            Outcome.err (GoError.errorString ("section " ++ sectionName ++ " not found")))) := by
  refine ⟨?_, ?_, ?_⟩
  · intro i m ur hfind hkind hexp hur hloop
    rw [updateConfig_of_loop_nil L p sectionName r i m hform hfind hkind hexp hloop, hur]
    rcases hu : ur (p.config.setFields i m (decoded L r m.fields)) p.Notifications
      with ⟨c, ns, oe⟩
    cases oe <;> simp [hu]
  · intro i m fields e U hfind hkind hexp hloop
    exact updateConfig_of_loop_err L (withUpdated p U) sectionName r i m fields e hform hfind
      hkind hexp hloop
  · intro U hmiss
    exact updateConfig_section_not_found L (withUpdated p U) sectionName r hform hmiss

theorem updateConfig_hook_once_witness :
    ((updateConfig exampleLib (updateTestPage true) "Section" (formRequest [])).1.config.vals,
      (updateConfig exampleLib (updateTestPage true) "Section" (formRequest [])).1.Notifications,
      (updateConfig exampleLib (updateTestPage true) "Section" (formRequest [])).2)
      = ([(GoVal.other "", [GoVal.bool true]), (GoVal.other "", []), (GoVal.other "", [])],
          [{ Message := "updated", Status := "info" }], Outcome.nil) := by
  rw [(updateConfig_hook_once exampleLib (updateTestPage true) "Section" (formRequest [])
    rfl).1 0 (structMember "Section" "" [plainSlot "UpdatedCalled" "" Kind.Bool (GoVal.bool true)])
    updatedCalledHook rfl rfl rfl rfl (by decide)]
  decide

/-- C18, as amended. No rollback on hook failure: when the `Updated` hook of a
section returns the error `e` after a decode pass without error, `updateConfig`
returns `e` as it is and leaves the root object and the notification queue as
the hook left them, restoring nothing; the hook was given the root object in
which every exported member of the section holds its decoded value, so that a
hook that leaves the root object as it was given leaves these values. -/
theorem updateConfig_hook_failure (L : GoLib) (p : configPage) (sectionName : String)
    (r : Request) (i : Nat) (m : Member) (ur : Hook) (c : Config) (ns : List Notification)
    (e : GoError)
    (hform : r.parseFormErr = none)
    (hfind : FieldByName p.config.members sectionName = some (i, m))
    (hkind : m.kind = Kind.Struct) (hexp : m.sf.PkgPath = "")
    (hur : p.Updated m.sf.Name = some ur)
    (hloop : (updateLoop L false r m.fields).2 = Outcome.nil)
    (hhook : ur (p.config.setFields i m (decoded L r m.fields)) p.Notifications
      = (c, ns, some e)) :
    updateConfig L p sectionName r
      = ({ p with config := c, Notifications := ns }, Outcome.err e) ∧
    (c = p.config.setFields i m (decoded L r m.fields) →
      (updateConfig L p sectionName r).1.config
        = p.config.setFields i m (decoded L r m.fields)) := by
  have h : updateConfig L p sectionName r
      = ({ p with config := c, Notifications := ns }, Outcome.err e) := by
    rw [updateConfig_of_loop_nil L p sectionName r i m hform hfind hkind hexp hloop, hur]
    simp [hhook]
  refine ⟨h, ?_⟩
  intro hc
  rw [h]
  exact hc

theorem updateConfig_hook_failure_witness :
    (profileConfig "" false).vals = [(GoVal.other "", [GoVal.str "", GoVal.bool false])] ∧
    ((updateConfig exampleLib (erroringPage (profileConfig "" false)) "Profile"
        (formRequest [("user_name", "alice"), ("Active", "on")])).1.config.vals,
      (updateConfig exampleLib (erroringPage (profileConfig "" false)) "Profile"
        (formRequest [("user_name", "alice"), ("Active", "on")])).2)
      = ([(GoVal.other "", [GoVal.str "alice", GoVal.bool true])],
          Outcome.err (GoError.errorString "update error")) ∧
    ((updateConfig exampleLib (updateTestPage false) "ErrSection" (formRequest [])).1.config.vals,
      (updateConfig exampleLib (updateTestPage false) "ErrSection" (formRequest [])).2)
      = ([(GoVal.other "", [GoVal.bool false]), (GoVal.other "", []), (GoVal.other "", [])],
          Outcome.err (GoError.errorString "update error")) := by
  refine ⟨by decide, ?_, ?_⟩
  · rw [(updateConfig_hook_failure exampleLib (erroringPage (profileConfig "" false)) "Profile"
      (formRequest [("user_name", "alice"), ("Active", "on")])
      0 (structMember "Profile" "" (profileFields "" false)) updateErrHook
      ((profileConfig "" false).setFields 0 (structMember "Profile" "" (profileFields "" false))
        (decoded exampleLib (formRequest [("user_name", "alice"), ("Active", "on")])
          (profileFields "" false)))
      [] (GoError.errorString "update error") rfl rfl rfl rfl rfl (by decide) rfl).1]
    decide
  · rw [(updateConfig_hook_failure exampleLib (updateTestPage false) "ErrSection" (formRequest [])
      1 (structMember "ErrSection" "" []) updateErrHook
      ((updateTestConfig false).setFields 1 (structMember "ErrSection" "" []) []) []
      (GoError.errorString "update error") rfl rfl rfl rfl rfl (by decide) rfl).1]
    decide

/-- C18, as first stated, fails when the hook writes to its section before it
returns the error: "alice" is submitted for the member `Name`, the hook sets
it to "bob" and returns an error, which `updateConfig` returns, and the member
holds "bob", not the decoded "alice". -/
theorem updateConfig_failing_hook_overwrites :
    (updateConfig exampleLib (rejectingPage (profileConfig "" false)) "Profile"
        (formRequest [("user_name", "alice"), ("Active", "on")])).2
      = Outcome.err (GoError.errorString "rejected") ∧
    slotVals (decoded exampleLib (formRequest [("user_name", "alice"), ("Active", "on")])
        (profileFields "" false))
      = [GoVal.str "alice", GoVal.bool true] ∧
    (updateConfig exampleLib (rejectingPage (profileConfig "" false)) "Profile"
        (formRequest [("user_name", "alice"), ("Active", "on")])).1.config.vals
      = [(GoVal.other "", [GoVal.str "bob", GoVal.bool true])] := by
  decide

/-! ## Properties of the construction -/

/-- The loop of `initialize` runs the hooks that the exported members expose,
in declaration order, up to the first that returns an error. -/
theorem initializeLoop_eq (hooks : String → Option Hook) (members : List Member) (c : Config)
    (ns : List Notification) :
    initializeLoop hooks (members.map (fun m => m.sf)) c ns
      = runHooks (initHooks hooks members) c ns := by
  induction members generalizing c ns with
  | nil => rfl
  | cons m rest ih =>
    by_cases hexp : m.sf.PkgPath = ""
    · cases hh : hooks m.sf.Name with
      | none =>
        simp [initializeLoop, initHooks, List.filter_cons, hexp, hh] at ih ⊢
        exact ih c ns
      | some init =>
        rcases hi : init c ns with ⟨c1, ns1, oe⟩
        cases oe with
        | none =>
          simp [initializeLoop, initHooks, List.filter_cons, hexp, hh, runHooks, hi] at ih ⊢
          exact ih c1 ns1
        | some err =>
          simp [initializeLoop, initHooks, List.filter_cons, hexp, hh, runHooks, hi]
    · simp [initializeLoop, initHooks, List.filter_cons, hexp] at ih ⊢
      exact ih c ns

/-- Hooks that all return nil, followed by others. -/
theorem runHooks_append (pre rest : List Hook) (c c1 : Config) (ns ns1 : List Notification)
    (h : runHooks pre c ns = (c1, ns1, none)) :
    runHooks (pre ++ rest) c ns = runHooks rest c1 ns1 := by
  induction pre generalizing c ns with
  | nil =>
    simp [runHooks] at h
    rcases h with ⟨h1, h2⟩
    subst h1
    subst h2
    rfl
  | cons g pre ih =>
    rcases hg : g c ns with ⟨c2, ns2, oe⟩
    cases oe with
    | none =>
      simp only [runHooks, hg, List.cons_append] at h ⊢
      exact ih c2 ns2 h
    | some err => simp [runHooks, hg] at h

/-- C19. Initialization is ordered and short-circuits: `New` runs the hooks
`Initialize` of the exported members of the root in declaration order, each on
the root object as the one before left it.  When the hooks before the `k`-th
all return nil and the `k`-th returns the error `e`, `New` returns `e` and no
handler, and the root object is as these `k` hooks, each run once, left it,
whatever hooks come after.  When all return nil, `New` returns a handler over
the root object as all the hooks, each run once, left it. -/
theorem New_initialize_order (config : Config) (withAssets : Bool)
    (Updated Initialize : String → Option Hook) :
    (∀ (pre post : List Hook) (h : Hook) (c1 c2 : Config) (ns1 ns2 : List Notification)
        (e : GoError),
      initHooks Initialize config.members = pre ++ h :: post →
      runHooks pre config [] = (c1, ns1, none) →
      h c1 ns1 = (c2, ns2, some e) →
      New config withAssets Updated Initialize = (c2, .error e)) ∧
    (∀ (c : Config) (ns : List Notification),
      runHooks (initHooks Initialize config.members) config [] = (c, ns, none) →
      New config withAssets Updated Initialize
        = (c, .ok
            { Title := "", Subtitle := "", Notifications := ns, Sections := [],
              HasAssets := false, config := c, hasAssetsHandler := withAssets,
              Updated := Updated, Initialize := Initialize })) := by
  refine ⟨?_, ?_⟩
  · intro pre post h c1 c2 ns1 ns2 e hhooks hpre hfail
    have hrun : runHooks (initHooks Initialize config.members) config [] = (c2, ns2, some e) := by
      rw [hhooks, runHooks_append pre (h :: post) config c1 [] ns1 hpre]
      simp [runHooks, hfail]
    simp [New, initializePage, initializeLoop_eq, hrun]
  · intro c ns hrun
    simp [New, initializePage, initializeLoop_eq, hrun]

theorem New_initialize_order_witness :
    ((New initConfig false (fun _ => none) initSecondFails).1.vals,
      (New initConfig false (fun _ => none) initSecondFails).2.toOption.isSome)
      = ([(GoVal.other "", [GoVal.bool true]), (GoVal.other "", [GoVal.bool false]),
          (GoVal.other "", [GoVal.bool false]), (GoVal.other "", [GoVal.bool false])],
        false) ∧
    ((New initConfig false (fun _ => none) initAllSucceed).1.vals,
      (New initConfig false (fun _ => none) initAllSucceed).2.toOption.isSome)
      = ([(GoVal.other "", [GoVal.bool true]), (GoVal.other "", [GoVal.bool false]),
          (GoVal.other "", [GoVal.bool true]), (GoVal.other "", [GoVal.bool true])],
        true) := by
  refine ⟨?_, by decide⟩
  rw [(New_initialize_order initConfig false (fun _ => none) initSecondFails).1
    [initSuccessHook "First"] [initSuccessHook "Third"] initErrHook
    (writeMember initConfig "First" "Initialized" (GoVal.bool true))
    (writeMember initConfig "First" "Initialized" (GoVal.bool true))
    [] [] (GoError.errorString "init error") rfl rfl rfl]
  decide

/-! ## The text of a `ParseError` -/

/-- C21. Message format of a `ParseError`: for every message, field name and
cause, `Error()` returns the message, then " field ", then the field name,
then ": ", then the text of the cause; and this is the text of the
`ParseError` seen as an error. -/
theorem ParseError_Error_format (L : GoLib) (p : ParseError) :
    p.Error L = p.Message ++ " field " ++ p.Field ++ ": " ++ errorText L p.Err ∧
    errorText L p.asError = p.Error L := by
  refine ⟨?_, by simp [ParseError.asError, ParseError.Error, errorText]⟩
  apply String.ext
  have h1 : "%s field %s: %v".data
      = ['%', 's', ' ', 'f', 'i', 'e', 'l', 'd', ' ', '%', 's', ':', ' ', '%', 'v'] := rfl
  have h2 : " field ".data = [' ', 'f', 'i', 'e', 'l', 'd', ' '] := rfl
  have h3 : ": ".data = [':', ' '] := rfl
  simp [ParseError.Error, Sprintf, h1, h2, h3, sprintfChars, FmtArg.text, String.data_append]

theorem ParseError_Error_format_witness :
    ParseError.Error exampleLib
        { Message := "test msg", Field := "f1", Err := GoError.errorString "inner" }
      = "test msg field f1: inner" := by
  rw [(ParseError_Error_format exampleLib
    { Message := "test msg", Field := "f1", Err := GoError.errorString "inner" }).1]
  decide

/-! ## Kinds that `handleField` does not decode -/

/-- C22. Unsupported kinds are ignored: on a member whose kind is none of
boolean, string, signed integer, unsigned integer and float, and whose type
has no `UnmarshalText`, `handleField` returns no error for any text and leaves
the member as it was, and the loop of `updateConfig` goes on with the members
that follow. -/
theorem handleField_ignores_other_kinds (L : GoLib) (v : Slot) (s : String)
    (hb : v.kind ≠ Kind.Bool) (hs : v.kind ≠ Kind.String)
    (hi : isIntKind v.kind = false) (hu : isUintKind v.kind = false)
    (hf : isFloatKind v.kind = false) (hc : v.unmarshalText = none) :
    handleField L false v s = (v, Outcome.nil) ∧
    (∀ (r : Request) (rest : List Slot),
      updateLoop L false r (v :: rest)
        = (v :: (updateLoop L false r rest).1, (updateLoop L false r rest).2)) := by
  have h : ∀ t, handleField L false v t = (v, Outcome.nil) := by
    intro t
    cases hk : v.kind <;>
      simp_all [handleField, isIntKind, isUintKind, isFloatKind]
  refine ⟨h s, ?_⟩
  intro r rest
  cases hexp : v.exported with
  | false => exact updateLoop_skip L false r v rest hexp
  | true =>
    rw [updateLoop_step L false r v rest hexp (by rw [h])]
    rw [h]

theorem handleField_ignores_other_kinds_witness :
    handleField exampleLib false (plainSlot "Tags" "" Kind.Slice (GoVal.other "[a b]")) "x"
      = (plainSlot "Tags" "" Kind.Slice (GoVal.other "[a b]"), Outcome.nil) :=
  (handleField_ignores_other_kinds exampleLib
    (plainSlot "Tags" "" Kind.Slice (GoVal.other "[a b]")) "x"
    (by decide) (by decide) (by decide) (by decide) (by decide) rfl).1

/-! ## Narrow integers -/

/-- A text that `ParseInt` accepts is not empty. -/
theorem numeral_of_parseInt (s : String) (n : Int) (h : ParseInt s = .ok n) : numeral s = s := by
  by_cases hs : s = ""
  · subst hs
    simp [ParseInt] at h
  · simp [numeral, hs]

/-- A text that `ParseUint` accepts is not empty. -/
theorem numeral_of_parseUint (s : String) (n : Nat) (h : ParseUint s = .ok n) :
    numeral s = s := by
  by_cases hs : s = ""
  · subst hs
    simp [ParseUint] at h
  · simp [numeral, hs]

/-- C25. Narrow integer members wrap silently: on a member of an integer kind
of width `w` below 64 bits whose type has no `UnmarshalText`, a text that
parses as the 64-bit integer `n` (signed for a signed kind, unsigned for an
unsigned kind) is decoded without error, and the member holds `n` reduced
modulo `2 ^ w`, in two's complement for a signed kind; what it holds is `n`
exactly when `n` is in the range of the kind. -/
theorem handleField_narrow_int_wraps (L : GoLib) (v : Slot) (s : String) (w : Nat)
    (hc : v.unmarshalText = none) (hw : narrowBits v.kind = some w) :
    (isIntKind v.kind = true → ∀ n : Int, ParseInt s = .ok n →
      handleField L false v s = ({ v with val := GoVal.int (wrapInt w n) }, Outcome.nil) ∧
      wrapInt w n % 2 ^ w = n % 2 ^ w ∧
      - 2 ^ (w - 1) ≤ wrapInt w n ∧ wrapInt w n < 2 ^ (w - 1) ∧
      (wrapInt w n = n ↔ - 2 ^ (w - 1) ≤ n ∧ n < 2 ^ (w - 1))) ∧
    (isUintKind v.kind = true → ∀ n : Nat, ParseUint s = .ok n →
      handleField L false v s = ({ v with val := GoVal.uint (n % 2 ^ w) }, Outcome.nil) ∧
      (n % 2 ^ w = n ↔ n < 2 ^ w)) := by
  constructor
  · intro hk n hn
    have hnum := numeral_of_parseInt s n hn
    simp only [numeral] at hnum
    cases hkind : v.kind <;> simp [hkind, narrowBits, isIntKind] at hw hk <;> subst hw <;>
      refine ⟨by simp [handleField, handleInt, hkind, hc, hnum, hn, SetInt, afterSet], ?_⟩ <;>
      simp only [wrapInt] <;> norm_num <;> omega
  · intro hk n hn
    have hnum := numeral_of_parseUint s n hn
    simp only [numeral] at hnum
    cases hkind : v.kind <;> simp [hkind, narrowBits, isUintKind] at hw hk <;> subst hw <;>
      refine ⟨by simp [handleField, handleUint, hkind, hc, hnum, hn, SetUint, afterSet,
        wrapUint], ?_⟩ <;>
      norm_num

theorem handleField_narrow_int_wraps_witness :
    (handleField exampleLib false (plainSlot "Int8Field" "" Kind.Int8 (GoVal.int 0)) "300").1.val
      = GoVal.int 44 := by
  rw [((handleField_narrow_int_wraps exampleLib (plainSlot "Int8Field" "" Kind.Int8 (GoVal.int 0))
    "300" 8 rfl rfl).1 (by decide) 300 (by decide)).1]
  decide

/-! ## The schema is derived anew -/

/-- C26. The schema is derived fresh and never accumulates: the sections
`buildPage` leaves are those of the current root object, whatever sections the
page held before, so that two pages over the same root object get the same
sections, a second call of `buildPage` leaves the page as the first did, and
after a call of `updateConfig` the sections are those of the root object the
call left, each exported member of a section being shown by `buildField` with
the value it holds then. -/
theorem buildPage_fresh (L : GoLib) (p : configPage) :
    (buildPage L p).Sections = pageSections L p.config.members ∧
    (∀ q : configPage, q.config = p.config → (buildPage L q).Sections = (buildPage L p).Sections) ∧
    (∀ old : List Section,
      (buildPage L { p with Sections := old }).Sections = (buildPage L p).Sections) ∧
    buildPage L (buildPage L p) = buildPage L p ∧
    (∀ (sectionName : String) (r : Request),
      (buildPage L (updateConfig L p sectionName r).1).Sections
        = ((updateConfig L p sectionName r).1.config.members.filter Member.isSection).map
            (fun m =>
              { Title := m.sf.Name, Subtitle := "", Action := m.sf.Name,
                Fields := (m.fields.filter Slot.exported).map (buildField L) })) := by
  refine ⟨rfl, ?_, fun _ => rfl, rfl, ?_⟩
  · intro q hq
    simp [buildPage, hq]
  · intro sectionName r
    simp only [buildPage, pageSections_eq]
    apply List.map_congr_left
    intro m _
    simp [buildSection, sectionFields_eq]

/-! ## Notifications -/

/-- Notifications queued one after the other are added at the end, in order. -/
theorem foldl_Notify (ns : List Notification) (p : configPage) :
    (ns.foldl configPage.Notify p).Notifications = p.Notifications ++ ns ∧
    (ns.foldl configPage.Notify p).config = p.config := by
  induction ns generalizing p with
  | nil => simp
  | cons n ns ih =>
    rw [List.foldl_cons]
    refine ⟨?_, ?_⟩
    · rw [(ih (p.Notify n)).1]
      simp [configPage.Notify, Page.Notify]
    · rw [(ih (p.Notify n)).2]
      rfl

/-- C27. Notifications are shown by at most one render: `Notify` adds its
argument at the end of the queue and leaves the entries before it as they
were; `serveIndex` hands to `writeIndex` the page with the queue as it was,
and leaves the queue empty whether `writeIndex` fails or not; so a later
`serveIndex` hands to `writeIndex` exactly the notifications queued since. -/
theorem notifications_shown_once (L : GoLib) (writeIndex : Page → String × Option GoError)
    (p : configPage) :
    (∀ n, (p.toPage.Notify n).Notifications = p.Notifications ++ [n]) ∧
    (∀ n, (p.Notify n).Notifications = p.Notifications ++ [n]) ∧
    (serveIndex L writeIndex p).1.Notifications = [] ∧
    (serveIndex L writeIndex p).2 = indexResponse L (writeIndex (buildPage L p).toPage) ∧
    (buildPage L p).toPage.Notifications = p.Notifications ∧
    (∀ (later : List Notification) (writeLater : Page → String × Option GoError),
      (serveIndex L writeLater (later.foldl configPage.Notify (serveIndex L writeIndex p).1)).2
        = indexResponse L (writeLater
            (buildPage L (later.foldl configPage.Notify (serveIndex L writeIndex p).1)).toPage) ∧
      (buildPage L
        (later.foldl configPage.Notify (serveIndex L writeIndex p).1)).toPage.Notifications
        = later) := by
  refine ⟨fun _ => rfl, fun _ => rfl, rfl, rfl, rfl, ?_⟩
  intro later writeLater
  refine ⟨rfl, ?_⟩
  have h := (foldl_Notify later (serveIndex L writeIndex p).1).1
  simp only [serveIndex, List.nil_append] at h
  simpa [buildPage, serveIndex] using h

/-! ## Decimal numerals -/

theorem digitChar_digit (d : Nat) (hd : d < 10) :
    '0' ≤ Nat.digitChar d ∧ Nat.digitChar d ≤ '9' ∧
      (Nat.digitChar d).toNat - '0'.toNat = d := by
  interval_cases d <;> decide

theorem maxUint64_eq : maxUint64 = 18446744073709551615 := by decide

theorem parseUintLoop_digit (d : Nat) (hd : d < 10) (ds : List Char) (acc : Nat)
    (h : acc * 10 + d ≤ maxUint64) :
    parseUintLoop (Nat.digitChar d :: ds) acc = parseUintLoop ds (acc * 10 + d) := by
  obtain ⟨h1, h2, h3⟩ := digitChar_digit d hd
  have hacc : ¬ acc ≥ maxUint64 / 10 + 1 := by
    rw [maxUint64_eq] at h ⊢
    omega
  have hn : ¬ acc * 10 + d > maxUint64 := by omega
  simp only [parseUintLoop, h1, h2, h3, and_self, if_true, hacc, if_false, hn]

theorem parseUintLoop_toDigitsCore (n : Nat) :
    ∀ (fuel : Nat) (ds : List Char), n < fuel → n ≤ maxUint64 →
      parseUintLoop (Nat.toDigitsCore 10 fuel n ds) 0 = parseUintLoop ds n := by
  induction n using Nat.strong_induction_on with
  | _ n ih =>
    intro fuel ds hfuel hmax
    cases fuel with
    | zero => omega
    | succ f =>
      unfold Nat.toDigitsCore
      by_cases h0 : n / 10 = 0
      · simp only [h0, if_true]
        have hlt : n < 10 := by omega
        rw [Nat.mod_eq_of_lt hlt, parseUintLoop_digit n hlt ds 0 (by omega)]
        simp
      · simp only [h0, if_false]
        rw [ih (n / 10) (by omega) f _ (by omega) (by omega),
          parseUintLoop_digit (n % 10) (Nat.mod_lt _ (by omega)) ds (n / 10) (by omega)]
        congr 1
        omega

theorem toDigitsCore_ne_nil (fuel n : Nat) (ds : List Char) (h : 0 < fuel ∨ ds ≠ []) :
    Nat.toDigitsCore 10 fuel n ds ≠ [] := by
  induction fuel generalizing n ds with
  | zero =>
    rcases h with h | h
    · omega
    · simpa [Nat.toDigitsCore] using h
  | succ f ih =>
    unfold Nat.toDigitsCore
    by_cases h0 : n / 10 = 0
    · simp [h0]
    · simp only [h0, if_false]
      exact ih _ _ (Or.inr (by simp))

theorem parseUint_repr (n : Nat) (h : n ≤ maxUint64) : ParseUint (Nat.repr n) = .ok n := by
  have hd : (Nat.repr n).data = Nat.toDigitsCore 10 (n + 1) n [] := rfl
  have hne : Nat.repr n ≠ "" := by
    intro he
    have : (Nat.repr n).data = [] := by rw [he]
    rw [hd] at this
    exact toDigitsCore_ne_nil (n + 1) n [] (Or.inl (by omega)) this
  simp only [ParseUint, hne, if_false, hd]
  rw [parseUintLoop_toDigitsCore n (n + 1) [] (by omega) h]
  simp [parseUintLoop]

theorem parseUintLoop_head_digit (c : Char) (cs : List Char) (acc m : Nat)
    (h : parseUintLoop (c :: cs) acc = .ok m) : '0' ≤ c ∧ c ≤ '9' := by
  by_contra hc
  simp [parseUintLoop, hc] at h

theorem repr_data (n : Nat) (h : n ≤ maxUint64) :
    (Nat.repr n).data ≠ [] ∧ parseUintLoop (Nat.repr n).data 0 = .ok n := by
  have hd : (Nat.repr n).data = Nat.toDigitsCore 10 (n + 1) n [] := rfl
  refine ⟨?_, ?_⟩
  · rw [hd]
    exact toDigitsCore_ne_nil (n + 1) n [] (Or.inl (by omega))
  · rw [hd, parseUintLoop_toDigitsCore n (n + 1) [] (by omega) h]
    simp [parseUintLoop]

theorem parseInt_decimal (n : Int) (h1 : -2 ^ 63 ≤ n) (h2 : n < 2 ^ 63) :
    ParseInt (decimalInt n) = .ok n := by
  have hm : n.natAbs ≤ maxUint64 := by
    rw [maxUint64_eq]
    omega
  obtain ⟨hne, hparse⟩ := repr_data n.natAbs hm
  by_cases hneg : n < 0
  · have hdata : ("-" ++ Nat.repr n.natAbs).data = '-' :: (Nat.repr n.natAbs).data := by
      rw [String.data_append]
      rfl
    have hs : ("-" ++ Nat.repr n.natAbs) ≠ "" := by
      intro he
      have := congrArg String.data he
      rw [hdata] at this
      simp at this
    have hcut : ¬ 9223372036854775808 < n.natAbs := by omega
    simp only [decimalInt, hneg, if_true, ParseInt, hs, if_false, hdata, List.head?_cons,
      List.tail_cons, hne, hparse]
    simp [hcut, hne, hparse, abs_of_neg hneg]
  · rcases hl : (Nat.repr n.natAbs).data with _ | ⟨c, cs⟩
    · exact absurd hl hne
    · rw [hl] at hparse
      obtain ⟨hc1, hc2⟩ := parseUintLoop_head_digit c cs 0 _ hparse
      have hplus : c ≠ '+' := by
        intro he
        subst he
        exact absurd hc1 (by decide)
      have hminus : c ≠ '-' := by
        intro he
        subst he
        exact absurd hc1 (by decide)
      have hs : Nat.repr n.natAbs ≠ "" := by
        intro he
        rw [he] at hl
        simp at hl
      have hcut : ¬ 9223372036854775808 ≤ n.natAbs := by omega
      simp only [decimalInt, hneg, if_false, ParseInt, hs, hl, List.head?_cons,
        Option.some.injEq, hplus, hminus, or_self, hparse]
      simp [hcut, hparse]
      omega

/-! ## Well-typed members -/

theorem wellTyped_str (v : Slot) (ht : wellTyped v = true) (hk : v.kind = Kind.String) :
    ∃ s, v.val = GoVal.str s := by
  rcases v with ⟨sf, kind, val, um, mt, st⟩
  cases val <;> simp_all [wellTyped, isIntKind, isUintKind, isFloatKind]

theorem wellTyped_bool (v : Slot) (ht : wellTyped v = true) (hk : v.kind = Kind.Bool) :
    ∃ b, v.val = GoVal.bool b := by
  rcases v with ⟨sf, kind, val, um, mt, st⟩
  cases val <;> simp_all [wellTyped, isIntKind, isUintKind, isFloatKind]

theorem wellTyped_int (v : Slot) (ht : wellTyped v = true) (hk : isIntKind v.kind = true) :
    ∃ n : Int, v.val = GoVal.int n ∧ - 2 ^ (bitsOf v.kind - 1) ≤ n ∧ n < 2 ^ (bitsOf v.kind - 1) ∧
      - 2 ^ 63 ≤ n ∧ n < 2 ^ 63 := by
  rcases v with ⟨sf, kind, val, um, mt, st⟩
  cases kind <;> simp [isIntKind] at hk <;> cases val <;>
    simp_all [wellTyped, isIntKind, isUintKind, isFloatKind, bitsOf, IntSize] <;> omega

theorem wellTyped_uint (v : Slot) (ht : wellTyped v = true) (hk : isUintKind v.kind = true) :
    ∃ n : Nat, v.val = GoVal.uint n ∧ n < 2 ^ bitsOf v.kind ∧ n ≤ maxUint64 := by
  rcases v with ⟨sf, kind, val, um, mt, st⟩
  rw [maxUint64_eq]
  cases kind <;> simp [isUintKind] at hk <;> cases val <;>
    simp_all [wellTyped, isIntKind, isUintKind, isFloatKind, bitsOf, IntSize] <;> omega

/-! ## The built-in encode -/

/-- With no `MarshalText` and no `String` or `Error` method, the value shown
is what `fmt.Sprint` gives for the value held. -/
theorem buildField_sprint (L : GoLib) (v : Slot)
    (hm : v.marshalText = none) (hs : v.stringer = none) :
    (buildField L v).Value = sprintVal L v.kind v.val := by
  simp [buildField, hm, hs]

/-- C23, as amended. Built-in encode, for a member whose type has no
`MarshalText`.  When the type has no method of its own through which
`fmt.Sprint` prints (`Format`, `Error` or `String`) and the member is
well-typed, the value `buildField` shows is the text the member holds when its
kind is string, and the base-10 numeral of the number it holds, which
`ParseInt` or `ParseUint` reads back as that number, when its kind is a signed
or an unsigned integer of any width.  When the type has such a method, the
value shown is the text that method gives for the value held, whatever the
kind. -/
theorem buildField_builtin_encode (L : GoLib) (v : Slot) (hm : v.marshalText = none) :
    (v.stringer = none → wellTyped v = true →
      (v.kind = Kind.String → ∃ s, v.val = GoVal.str s ∧ (buildField L v).Value = s) ∧
      (isIntKind v.kind = true → ∃ n : Int, v.val = GoVal.int n ∧
        (buildField L v).Value = decimalInt n ∧ ParseInt (buildField L v).Value = .ok n) ∧
      (isUintKind v.kind = true → ∃ n : Nat, v.val = GoVal.uint n ∧
        (buildField L v).Value = Nat.repr n ∧ ParseUint (buildField L v).Value = .ok n)) ∧
    (∀ str : GoVal → String, v.stringer = some str → (buildField L v).Value = str v.val) := by
  refine ⟨?_, ?_⟩
  · intro hs ht
    rw [buildField_sprint L v hm hs]
    refine ⟨?_, ?_, ?_⟩
    · intro hk
      obtain ⟨s, hv⟩ := wellTyped_str v ht hk
      exact ⟨s, hv, by rw [hv]; rfl⟩
    · intro hk
      obtain ⟨n, hv, _, _, h1, h2⟩ := wellTyped_int v ht hk
      refine ⟨n, hv, by rw [hv]; rfl, ?_⟩
      rw [hv]
      exact parseInt_decimal n h1 h2
    · intro hk
      obtain ⟨n, hv, _, h1⟩ := wellTyped_uint v ht hk
      refine ⟨n, hv, by rw [hv]; rfl, ?_⟩
      rw [hv]
      exact parseUint_repr n h1
  · intro str hs
    simp [buildField, hm, hs]

theorem buildField_builtin_encode_witness :
    (buildField exampleLib (plainSlot "IntField" "" Kind.Int (GoVal.int (-42)))).Value = "-42" ∧
    (buildField exampleLib (levelSlot 0)).Value = "Low" := by
  refine ⟨?_, ?_⟩
  · obtain ⟨n, hn, hv, _⟩ := ((buildField_builtin_encode exampleLib
      (plainSlot "IntField" "" Kind.Int (GoVal.int (-42))) rfl).1 rfl (by decide)).2.1
      (by decide)
    rw [hv]
    have : n = -42 := by
      simp [plainSlot] at hn
      omega
    subst this
    decide
  · rw [(buildField_builtin_encode exampleLib (levelSlot 0) rfl).2 levelString rfl]
    decide

/-- C23, as first stated, fails for a type with a `String` method: a member of
type `Level`, of kind int and with no custom codec, that holds 1 is shown as
"High", not as the numeral "1". -/
theorem buildField_uses_String_method :
    (levelSlot 1).marshalText.isNone = true ∧ (levelSlot 1).unmarshalText.isNone = true ∧
    (levelSlot 1).kind = Kind.Int ∧ (levelSlot 1).val = GoVal.int 1 ∧
    (buildField exampleLib (levelSlot 1)).Value = "High" ∧
    (buildField exampleLib (levelSlot 1)).Value ≠ decimalInt 1 := by
  decide

/-! ## Render, then submit -/

/-- Conversion to a width that holds the number leaves it as it is. -/
theorem wrapInt_id (k : Kind) (n : Int) (hk : isIntKind k = true)
    (h1 : - 2 ^ (bitsOf k - 1) ≤ n) (h2 : n < 2 ^ (bitsOf k - 1)) :
    wrapInt (bitsOf k) n = n := by
  cases k <;> simp [isIntKind] at hk <;>
    simp [bitsOf, IntSize, wrapInt] at h1 h2 ⊢ <;> omega

/-- On a member of a signed integer kind with no `UnmarshalText`, a text that
`ParseInt` reads is stored after conversion to the width of the kind. -/
theorem handleField_int_text (L : GoLib) (v : Slot) (s : String) (n : Int)
    (hk : isIntKind v.kind = true) (hu : v.unmarshalText = none) (hp : ParseInt s = .ok n) :
    handleField L false v s
      = ({ v with val := GoVal.int (wrapInt (bitsOf v.kind) n) }, Outcome.nil) := by
  have hnum := numeral_of_parseInt s n hp
  simp only [numeral] at hnum
  cases hkind : v.kind <;> simp [hkind, isIntKind] at hk <;>
    simp [handleField, handleInt, SetInt, afterSet, hkind, hu, hnum, hp, bitsOf]

/-- On a member of an unsigned integer kind with no `UnmarshalText`, a text
that `ParseUint` reads is stored after conversion to the width of the kind. -/
theorem handleField_uint_text (L : GoLib) (v : Slot) (s : String) (n : Nat)
    (hk : isUintKind v.kind = true) (hu : v.unmarshalText = none) (hp : ParseUint s = .ok n) :
    handleField L false v s
      = ({ v with val := GoVal.uint (wrapUint (bitsOf v.kind) n) }, Outcome.nil) := by
  have hnum := numeral_of_parseUint s n hp
  simp only [numeral] at hnum
  cases hkind : v.kind <;> simp [hkind, isUintKind] at hk <;>
    simp [handleField, handleUint, SetUint, afterSet, hkind, hu, hnum, hp, bitsOf]

/-- Decoding the value shown for a member of a built-in kind into that member
returns no error and leaves the member as it is. -/
theorem handleField_own_value (L : GoLib) (v : Slot) (hb : builtinMember v = true) :
    handleField L false v (buildField L v).Value = (v, Outcome.nil) := by
  simp only [builtinMember, Bool.decide_and, Bool.and_eq_true, decide_eq_true_eq,
    Option.isNone_iff_eq_none, Bool.decide_or, Bool.or_eq_true] at hb
  obtain ⟨hkinds, hu, hm, hs, ht⟩ := hb
  rw [buildField_sprint L v hm hs]
  rcases hkinds with hk | hk | hk | hk
  · obtain ⟨b, hv⟩ := wellTyped_bool v ht hk
    rcases v with ⟨sf, kind, val, um, mt, st⟩
    simp only at hk hv hu
    subst hk hv hu
    cases b <;> simp [handleField, handleBool, SetBool, afterSet, sprintVal]
  · obtain ⟨s, hv⟩ := wellTyped_str v ht hk
    rcases v with ⟨sf, kind, val, um, mt, st⟩
    simp only at hk hv hu
    subst hk hv hu
    simp [handleField, SetString, afterSet, sprintVal]
  · obtain ⟨n, hv, h1, h2, h3, h4⟩ := wellTyped_int v ht hk
    have hsv : sprintVal L v.kind v.val = decimalInt n := by rw [hv]; rfl
    rw [hsv, handleField_int_text L v _ n hk hu (parseInt_decimal n h3 h4),
      wrapInt_id v.kind n hk h1 h2, ← hv]
  · obtain ⟨n, hv, h1, h2⟩ := wellTyped_uint v ht hk
    have hsv : sprintVal L v.kind v.val = Nat.repr n := by rw [hv]; rfl
    rw [hsv, handleField_uint_text L v _ n hk hu (parseUint_repr n h2)]
    simp only [wrapUint, Nat.mod_eq_of_lt h1]
    rw [← hv]

/-- The name of the descriptor `buildField` gives is the resolved name. -/
theorem buildField_Name (L : GoLib) (v : Slot) : (buildField L v).Name = resolvedName v := by
  unfold buildField resolvedName
  cases hm : v.marshalText with
  | some tm => cases ht : tm v.val <;> simp [ht]
  | none => cases hs : v.stringer <;> simp

/-- Looking up the key of an entry in a list whose keys are pairwise distinct
gives the value of that entry. -/
theorem lookup_of_nodup (key val : Slot → String) (l : List Slot) (v : Slot)
    (hn : (l.map key).Nodup) (hv : v ∈ l) :
    List.lookup (key v) (l.map (fun x => (key x, [val x]))) = some [val v] := by
  induction l with
  | nil => cases hv
  | cons a l ih =>
    rw [List.map_cons, List.nodup_cons] at hn
    by_cases hka : key v = key a
    · have hva : v = a := by
        rcases List.mem_cons.mp hv with h | h
        · exact h
        · exact absurd (hka ▸ List.mem_map_of_mem key h) hn.1
      subst hva
      simp [List.lookup]
    · have hvl : v ∈ l := by
        rcases List.mem_cons.mp hv with h | h
        · exact absurd (by rw [h]) hka
        · exact h
      have hne : (key v == key a) = false := by simpa using hka
      simp only [List.map_cons, List.lookup, hne]
      exact ih hn.2 hvl

/-- In the submission made of the descriptors of a section whose resolved
names are pairwise distinct, the text submitted for an exported member is the
value shown for it. -/
theorem submitted_renderedForm (L : GoLib) (fields : List Slot) (v : Slot)
    (hn : ((fields.filter Slot.exported).map resolvedName).Nodup)
    (hv : v ∈ fields) (hexp : v.exported = true) :
    submitted (renderedForm L fields) v = (buildField L v).Value := by
  have hform : (renderedForm L fields).Form
      = (fields.filter Slot.exported).map
          (fun x => (resolvedName x, [(buildField L x).Value])) := by
    simp [renderedForm, formRequest, sectionFields_eq, List.map_map, Function.comp_def,
      buildField_Name]
  have hmem : v ∈ fields.filter Slot.exported := List.mem_filter.mpr ⟨hv, hexp⟩
  simp only [submitted, Request.FormValue, hform,
    lookup_of_nodup resolvedName (fun x => (buildField L x).Value) _ v hn hmem]

/-- A decode pass in which every exported member is left as it is. -/
theorem updateLoop_identity (L : GoLib) (r : Request) (fields : List Slot)
    (h : ∀ v ∈ fields, v.exported = true →
      handleField L false v (submitted r v) = (v, Outcome.nil)) :
    updateLoop L false r fields = (fields, Outcome.nil) := by
  induction fields with
  | nil => rfl
  | cons a rest ih =>
    have ih1 := ih (fun v hv => h v (List.mem_cons_of_mem a hv))
    cases ha : a.exported with
    | false => rw [updateLoop_skip L false r a rest ha, ih1]
    | true =>
      have h1 := h a (List.mem_cons_self a rest) ha
      rw [updateLoop_step L false r a rest ha (by rw [h1]), h1, ih1]

/-- The member `FieldByName` finds is the one at the position it gives. -/
theorem set_of_fieldIndex (members : List Member) (name : String) (i : Nat) (m : Member)
    (h : fieldIndex members name = some (i, m)) : members.set i m = members := by
  induction members generalizing i with
  | nil => simp [fieldIndex] at h
  | cons a rest ih =>
    by_cases ha : a.sf.Name = name
    · simp [fieldIndex, ha] at h
      obtain ⟨h1, h2⟩ := h
      subst h1 h2
      rfl
    · simp only [fieldIndex, ha, if_false, Option.map_eq_some'] at h
      obtain ⟨⟨j, m1⟩, hj, heq⟩ := h
      simp only [Prod.mk.injEq] at heq
      obtain ⟨h1, h2⟩ := heq
      subst h1 h2
      simp [ih j hj]

/-- C24, as amended. Render-then-submit is the identity: for a section whose
exported members are all well-typed members of boolean, string, signed or
unsigned integer kind whose types have no text method of their own
(`UnmarshalText`, `MarshalText`, `String` or `Error`), and whose resolved
names are pairwise distinct, submitting the value of every descriptor of
`buildSection` under its name gives a decode pass that ends without error and
leaves every member of the section as it was; when the section exposes no
`Updated` hook, `updateConfig` returns nil and leaves the page as it was. -/
theorem render_submit_identity (L : GoLib) (p : configPage) (sectionName : String) (i : Nat)
    (m : Member)
    (hfind : FieldByName p.config.members sectionName = some (i, m))
    (hkind : m.kind = Kind.Struct) (hexp : m.sf.PkgPath = "")
    (hbuiltin : ∀ v ∈ m.fields, v.exported = true → builtinMember v = true)
    (hnames : ((m.fields.filter Slot.exported).map resolvedName).Nodup) :
    updateLoop L false (renderedForm L m.fields) m.fields = (m.fields, Outcome.nil) ∧
    (p.Updated m.sf.Name = none →
      updateConfig L p sectionName (renderedForm L m.fields) = (p, Outcome.nil)) := by
  have hloop : updateLoop L false (renderedForm L m.fields) m.fields
      = (m.fields, Outcome.nil) := by
    apply updateLoop_identity
    intro v hv hve
    rw [submitted_renderedForm L m.fields v hnames hv hve]
    exact handleField_own_value L v (hbuiltin v hv hve)
  refine ⟨hloop, ?_⟩
  intro hnone
  have hdec := updateLoop_nil L (renderedForm L m.fields) m.fields (by rw [hloop])
  rw [hloop] at hdec
  have hset : p.config.members.set i m = p.config.members := by
    apply set_of_fieldIndex _ sectionName
    by_cases hs : sectionName = ""
    · simp [FieldByName, hs] at hfind
    · simpa [FieldByName, hs] using hfind
  rw [updateConfig_of_loop_nil L p sectionName (renderedForm L m.fields) i m rfl hfind hkind hexp
    (by rw [hloop]), hnone, ← hdec]
  simp [Config.setFields, hset]

theorem render_submit_identity_witness :
    updateConfig exampleLib (newPage serverConfig) "Server" (renderedForm exampleLib serverFields)
      = (newPage serverConfig, Outcome.nil) :=
  (render_submit_identity exampleLib (newPage serverConfig) "Server" 0
    (structMember "Server" "" serverFields) rfl rfl rfl (by decide) (by decide)).2 rfl

/-- C24, as first stated, fails for a type with a `String` method: the section
`Logging` has one exported member, of kind int and with no custom codec; it
holds 1 and is shown as "High"; submitting that value is a decode error, the
text being no numeral. -/
theorem render_submit_fails_for_String_method :
    (levelSlot 1).kind = Kind.Int ∧
    (levelSlot 1).marshalText.isNone = true ∧ (levelSlot 1).unmarshalText.isNone = true ∧
    (renderedForm exampleLib [levelSlot 1]).Form = [("Level", ["High"])] ∧
    (updateConfig exampleLib (newPage (loggingConfig 1)) "Logging"
        (renderedForm exampleLib [levelSlot 1])).2
      = Outcome.err (GoError.ParseError "invalid integer" "Level"
          (GoError.NumError "ParseInt" "High" NumCause.ErrSyntax)) := by
  decide

/-! ## Notifications across renders -/

theorem notifications_shown_once_witness :
    (serveIndex exampleLib failingWriteIndex
        ((newPage serverConfig).Notify { Message := "saved", Status := "success" })).2.status
      = 500 ∧
    (buildPage exampleLib
        ((serveIndex exampleLib failingWriteIndex
          ((newPage serverConfig).Notify { Message := "saved", Status := "success" })).1.Notify
            { Message := "again", Status := "info" })).toPage.Notifications
      = [{ Message := "again", Status := "info" }] :=
  ⟨by decide,
    ((notifications_shown_once exampleLib failingWriteIndex
      ((newPage serverConfig).Notify { Message := "saved", Status := "success" })).2.2.2.2.2
        [{ Message := "again", Status := "info" }] listingWriteIndex).2⟩

end Webcfg
